import Mathlib

/-!
Verification of the PyZX ZX Spectrum 48K emulator core.

This file gives a shallow embedding of the parts of the emulator that the
checked properties are about:

* the 64 KiB memory (the `memory.py` module is not part of the sources at
  hand, so its byte store is modelled from the specification);
* the bus-access layer: both the plain `ClockAndBusAccess` of
  `bus_access.py` and the contended `ZXSpectrum48ClockAndBusAccess` of
  `spectrum.py`, including the contention-delay table and the per-frame
  screen-byte schedule built by its constructor;
* the Z80 CPU core of `z80.py`: its register file, the maskable-interrupt
  service routine, the HALT behaviour, and the instructions the checked
  properties mention (`NOP`, `ADD HL,BC`, `JR NZ`, `LD A,(nn)`, `HALT`,
  the `ED` prefix with `CPI`, and unknown `ED` opcodes), together with a
  one-iteration step function for the `Z80.execute` loop restricted to
  those opcodes.

Machine integers are modelled as `Nat`, with `Int` used locally at the
points where the Python source lets a value go negative before masking.
Python `x & 0xff` / `x & 0xffff` on such values is translated as the
Euclidean remainder, which agrees with Python's semantics of `&` with a
`2^k - 1` mask on arbitrary integers; `x >> k` on the (always non-negative)
operands used here is division by `2^k`.
-/

/-! ## Constants (from `z80.py`, `video.py` and `spectrum.py`) -/

def IM0 : Nat := 0

def IM1 : Nat := 1

def IM2 : Nat := 2

def CARRY_MASK : Nat := 0x01

def ADDSUB_MASK : Nat := 0x02

def PARITY_MASK : Nat := 0x04

def OVERFLOW_MASK : Nat := 0x04

def BIT3_MASK : Nat := 0x08

def HALFCARRY_MASK : Nat := 0x10

def BIT5_MASK : Nat := 0x20

def ZERO_MASK : Nat := 0x40

def SIGN_MASK : Nat := 0x80

def FLAG_53_MASK : Nat := BIT5_MASK ||| BIT3_MASK

def FLAG_SZ_MASK : Nat := SIGN_MASK ||| ZERO_MASK

def FLAG_SZHN_MASK : Nat := FLAG_SZ_MASK ||| HALFCARRY_MASK ||| ADDSUB_MASK

def FLAG_SZP_MASK : Nat := FLAG_SZ_MASK ||| PARITY_MASK

def FLAG_SZHP_MASK : Nat := FLAG_SZP_MASK ||| HALFCARRY_MASK

def TSTATES_PER_INTERRUPT : Nat := 69888

def TSTATES_PER_LINE : Nat := 224

def INTERRUPT_LENGTH : Nat := 24

def SCREEN_WIDTH : Nat := 256

def SCREEN_HEIGHT : Nat := 192

/-- Python masking `x & 0xff` for a possibly negative integer. -/
def mask8i (x : Int) : Nat := (x % 256).toNat

/-- Python masking `x & 0xffff` for a possibly negative integer. -/
def mask16i (x : Int) : Nat := (x % 65536).toNat

/-! ## Memory

`memory.py` is not among the sources; its behaviour is modelled from the
specification. -/

/-- Modelled from the spec: `Memory` is a flat 64 KiB byte array, so a read
returns an unsigned byte. The store is represented as a function from
addresses to byte values. -/
def Memory.peekb (m : Nat → Nat) (address : Nat) : Nat := m address % 256

/-- Modelled from the spec: `Memory.peeksb` returns the byte at `address`
sign-extended to an integer. -/
def Memory.peeksb (m : Nat → Nat) (address : Nat) : Int :=
  let b := m address % 256
  if 128 ≤ b then (b : Int) - 256 else (b : Int)

/-- Modelled from the spec: `Memory.pokeb` stores a byte; writes to
addresses below 16384 (the ROM region) are silently ignored. -/
def Memory.pokeb (m : Nat → Nat) (address v : Nat) : Nat → Nat :=
  if address < 16384 then m else fun a => if a = address then v % 256 else m a

/-! ## Clock-and-bus state

The state owned by the bus-access object: the T-state counter, the memory,
and the raster cursor `next_screen_byte_index`. The video rasterizer
callback `update_next_screen_word` mutates only video state, which is
outside this model; its invocation sites are kept as the cursor
increments. -/

structure BusState where
  tstates : Nat
  mem : Nat → Nat
  nextScreenByteIndex : Nat

/-! ## The contention and screen-byte tables

`ZXSpectrum48ClockAndBusAccess.__init__` fills `delay_tstates` (initially
all zero) and `screen_byte_tstate` (initially all
`TSTATES_PER_INTERRUPT * 2`) with one nested loop:

    for i in range(14335, 57247, TSTATES_PER_LINE):   # 192 iterations
        for n in range(0, 128, 8):                    # 16 iterations
            frame = i + n
            self.screen_byte_tstate[screen_byte_inx] = frame + 2
            screen_byte_inx += 1
            self.delay_tstates[frame..frame+7] = 6,5,4,3,2,1,0,0

The sequence of individual assignments is embedded as a list of
(index, value) writes folded over the initial table. The Python lists have
lengths 70088 and 3073; reads past the end would raise in Python, while the
modelled tables are total functions returning the initial value, a corner
no checked property touches. -/

def upd (f : Nat → Nat) (a v : Nat) : Nat → Nat :=
  fun t => if t = a then v else f t

def delayWrites : List (Nat × Nat) :=
  (List.range' 14335 192 TSTATES_PER_LINE).flatMap fun i =>
    (List.range' 0 16 8).flatMap fun n =>
      [(i + n, 6), (i + n + 1, 5), (i + n + 2, 4), (i + n + 3, 3),
       (i + n + 4, 2), (i + n + 5, 1), (i + n + 6, 0), (i + n + 7, 0)]

def delay_tstates : Nat → Nat :=
  delayWrites.foldl (fun f w => upd f w.1 w.2) (fun _ => 0)

/-- The screen-byte schedule written by the same loop: the k-th line and
m-th 8-pixel group (line index k < 192, group index m < 16, visit number
`screen_byte_inx = 16*k + m`) records T-state `i + n + 2` where
`i = 14335 + 224*k` and `n = 8*m`. -/
def screenWrites : List (Nat × Nat) :=
  (List.range 192).flatMap fun k =>
    (List.range 16).map fun m =>
      (16 * k + m, 14335 + TSTATES_PER_LINE * k + 8 * m + 2)

def screen_byte_tstate : Nat → Nat :=
  screenWrites.foldl (fun f w => upd f w.1 w.2) (fun _ => TSTATES_PER_INTERRUPT * 2)

/-! ## Bus access

The raster check shared by every timed bus operation of the contended bus:
after advancing the clock, if the current T-state has reached the schedule
entry at the raster cursor, the cursor advances (and the video callback
runs, which is outside this model). `address_on_bus` and
`interrupt_handling_time` use a `while` loop, embedded with fuel
`CATCHUP_FUEL`: the Python loop performs at most 3072 iterations before it
reaches the sentinel entry `screen_byte_tstate[3072] = 139776` (and raises
past the end of the list, a corner outside every checked property). -/

def screenCheck (s : BusState) : BusState :=
  if screen_byte_tstate s.nextScreenByteIndex ≤ s.tstates then
    {s with nextScreenByteIndex := s.nextScreenByteIndex + 1}
  else s

def CATCHUP_FUEL : Nat := 3073

def screenCatchUp : Nat → BusState → BusState
  | 0, s => s
  | fuel + 1, s =>
    if screen_byte_tstate s.nextScreenByteIndex ≤ s.tstates then
      screenCatchUp fuel {s with nextScreenByteIndex := s.nextScreenByteIndex + 1}
    else s

/-- The interface of the clock-and-bus layer, as the CPU uses it. The CPU
code is polymorphic in the bus (a `BusAccess` in the Python sources). -/
structure BusOps where
  fetch_opcode : BusState → Nat → Nat × BusState
  peekb : BusState → Nat → Nat × BusState
  peeksb : BusState → Nat → Int × BusState
  pokeb : BusState → Nat → Nat → BusState
  peekw : BusState → Nat → Nat × BusState
  pokew : BusState → Nat → Nat → BusState
  address_on_bus : BusState → Nat → Nat → BusState
  interrupt_handling_time : BusState → Nat → BusState
  is_active_INT : BusState → Bool

/-! ### The plain `ClockAndBusAccess` of `bus_access.py` -/

def ClockAndBusAccess.fetch_opcode (s : BusState) (address : Nat) : Nat × BusState :=
  let t := Memory.peekb s.mem address
  (t, {s with tstates := s.tstates + 4})

def ClockAndBusAccess.peekb (s : BusState) (address : Nat) : Nat × BusState :=
  let s := {s with tstates := s.tstates + 3}
  (Memory.peekb s.mem address, s)

def ClockAndBusAccess.peeksb (s : BusState) (address : Nat) : Int × BusState :=
  let s := {s with tstates := s.tstates + 3}
  (Memory.peeksb s.mem address, s)

def ClockAndBusAccess.pokeb (s : BusState) (address value : Nat) : BusState :=
  let s := {s with tstates := s.tstates + 3}
  {s with mem := Memory.pokeb s.mem address (value % 256)}

def ClockAndBusAccess.peekw (s : BusState) (address : Nat) : Nat × BusState :=
  let r1 := ClockAndBusAccess.peekb s address
  let r2 := ClockAndBusAccess.peekb r1.2 ((address + 1) % 65536)
  ((r2.1 <<< 8) ||| r1.1, r2.2)

/-- `ClockAndBusAccess.pokew` writes the two bytes directly through
`memory.pokeb`, without advancing `tstates` (and without masking the
incremented address). -/
def ClockAndBusAccess.pokew (s : BusState) (address value : Nat) : BusState :=
  let m := Memory.pokeb s.mem address (value % 256)
  let m := Memory.pokeb m (address + 1) (value >>> 8)
  {s with mem := m}

def ClockAndBusAccess.address_on_bus (s : BusState) (_address tstates : Nat) : BusState :=
  {s with tstates := s.tstates + tstates}

def ClockAndBusAccess.interrupt_handling_time (s : BusState) (tstates : Nat) : BusState :=
  {s with tstates := s.tstates + tstates}

def ClockAndBusAccess.is_active_INT (_s : BusState) : Bool := false

def plainBus : BusOps where
  fetch_opcode := ClockAndBusAccess.fetch_opcode
  peekb := ClockAndBusAccess.peekb
  peeksb := ClockAndBusAccess.peeksb
  pokeb := ClockAndBusAccess.pokeb
  peekw := ClockAndBusAccess.peekw
  pokew := ClockAndBusAccess.pokew
  address_on_bus := ClockAndBusAccess.address_on_bus
  interrupt_handling_time := ClockAndBusAccess.interrupt_handling_time
  is_active_INT := ClockAndBusAccess.is_active_INT

/-! ### The contended `ZXSpectrum48ClockAndBusAccess` of `spectrum.py`

Every timed access of the contended bus repeats the same block: add the
contention delay (when the address lies in 16384..32767) plus the base
cost to the clock, then run the raster check. `contendAdd` is that
repeated block. -/

def contendAdd (s : BusState) (address base : Nat) : BusState :=
  let s :=
    if 16384 ≤ address ∧ address < 32768 then
      {s with tstates := s.tstates + delay_tstates s.tstates + base}
    else
      {s with tstates := s.tstates + base}
  screenCheck s

def ZXSpectrum48.fetch_opcode (s : BusState) (address : Nat) : Nat × BusState :=
  let s := contendAdd s address 4
  (Memory.peekb s.mem address, s)

def ZXSpectrum48.peekb (s : BusState) (address : Nat) : Nat × BusState :=
  let s := contendAdd s address 3
  (Memory.peekb s.mem address, s)

def ZXSpectrum48.peeksb (s : BusState) (address : Nat) : Int × BusState :=
  let s := contendAdd s address 3
  (Memory.peeksb s.mem address, s)

def ZXSpectrum48.pokeb (s : BusState) (address value : Nat) : BusState :=
  let s := contendAdd s address 3
  {s with mem := Memory.pokeb s.mem address (value % 256)}

def ZXSpectrum48.peekw (s : BusState) (address : Nat) : Nat × BusState :=
  let s := contendAdd s address 3
  let lsb := Memory.peekb s.mem address
  let address2 := (address + 1) % 65536
  let s := contendAdd s address2 3
  let msb := Memory.peekb s.mem address2
  ((msb <<< 8) + lsb, s)

def ZXSpectrum48.pokew (s : BusState) (address value : Nat) : BusState :=
  let s := contendAdd s address 3
  let s := {s with mem := Memory.pokeb s.mem address (value % 256)}
  let address2 := (address + 1) % 65536
  let s := contendAdd s address2 3
  {s with mem := Memory.pokeb s.mem address2 (value >>> 8)}

def ZXSpectrum48.address_on_bus (s : BusState) (address tstates : Nat) : BusState :=
  let s :=
    if 16384 ≤ address ∧ address < 32768 then
      (List.range tstates).foldl
        (fun st _ => {st with tstates := st.tstates + delay_tstates st.tstates + 1}) s
    else
      {s with tstates := s.tstates + tstates}
  screenCatchUp CATCHUP_FUEL s

def ZXSpectrum48.interrupt_handling_time (s : BusState) (tstates : Nat) : BusState :=
  screenCatchUp CATCHUP_FUEL {s with tstates := s.tstates + tstates}

def ZXSpectrum48.is_active_INT (s : BusState) : Bool :=
  let current := s.tstates
  let current :=
    if TSTATES_PER_INTERRUPT ≤ current then current - TSTATES_PER_INTERRUPT else current
  decide (0 < current ∧ current < INTERRUPT_LENGTH)

def spectrumBus : BusOps where
  fetch_opcode := ZXSpectrum48.fetch_opcode
  peekb := ZXSpectrum48.peekb
  peeksb := ZXSpectrum48.peeksb
  pokeb := ZXSpectrum48.pokeb
  peekw := ZXSpectrum48.peekw
  pokew := ZXSpectrum48.pokew
  address_on_bus := ZXSpectrum48.address_on_bus
  interrupt_handling_time := ZXSpectrum48.interrupt_handling_time
  is_active_INT := ZXSpectrum48.is_active_INT

/-- A machine state with every byte of memory and every bus counter
cleared, used as the base of concrete test states. -/
def B0 : BusState where
  tstates := 0
  mem := fun _ => 0
  nextScreenByteIndex := 0

/-! ## The Z80 CPU core (`z80.py`)

The CPU state holds the register file of `Z80.__init__` together with the
bus state it drives. CPU code is written against the `BusOps` interface,
mirroring the `self.bus_access` indirection of the Python class. `regR` is
the raw Python attribute (incremented without masking; `get_reg_R` masks
on read). `memptr` is an `Int` because the source stores it unmasked and
several instructions can move it outside [0, 65535]. -/

structure Z80State where
  b : BusState
  regA : Nat
  regB : Nat
  regC : Nat
  regD : Nat
  regE : Nat
  regH : Nat
  regL : Nat
  sz5h3pnFlags : Nat
  carryFlag : Bool
  flagQ : Bool
  lastFlagQ : Bool
  regAx : Nat
  regFx : Nat
  regBx : Nat
  regCx : Nat
  regDx : Nat
  regEx : Nat
  regHx : Nat
  regLx : Nat
  regPC : Nat
  regIX : Nat
  regIY : Nat
  regSP : Nat
  regI : Nat
  regR : Nat
  regRbit7 : Bool
  ffIFF1 : Bool
  ffIFF2 : Bool
  pendingEI : Bool
  activeNMI : Bool
  halted : Bool
  modeINT : Nat
  prefixOpcode : Nat
  memptr : Int

/-- The add-table of `Z80.__init__`: sign bit for indices above 0x7f, the
copy of bits 5 and 3, and the zero flag patched into entry 0 after the
loop. (The parity tables are built the same way but are not needed by the
instructions modelled here.) -/
def sz53n_addTable (idx : Nat) : Nat :=
  let v := if 0x7f < idx then SIGN_MASK else 0
  let v := v ||| (idx &&& FLAG_53_MASK)
  if idx = 0 then v ||| ZERO_MASK else v

/-- The sub-table adds the ADDSUB mask to every add-table entry; oring the
zero flag into entry 0 after the loop commutes with that. -/
def sz53n_subTable (idx : Nat) : Nat :=
  sz53n_addTable idx ||| ADDSUB_MASK

def Z80.get_reg_HL (s : Z80State) : Nat := (s.regH <<< 8) ||| s.regL

def Z80.set_reg_HL (s : Z80State) (word : Nat) : Z80State :=
  {s with regH := (word >>> 8) &&& 0xff, regL := word &&& 0xff}

def Z80.get_reg_BC (s : Z80State) : Nat := (s.regB <<< 8) ||| s.regC

def Z80.get_pair_IR (s : Z80State) : Nat :=
  if s.regRbit7 then (s.regI <<< 8) ||| ((s.regR &&& 0x7f) ||| SIGN_MASK)
  else (s.regI <<< 8) ||| (s.regR &&& 0x7f)

/-- `inc_reg_HL`, with the early returns of the source folded into nested
conditionals. -/
def Z80.inc_reg_HL (s : Z80State) : Z80State :=
  let l := s.regL + 1
  if l < 0x100 then {s with regL := l}
  else
    let h := s.regH + 1
    if h < 0x100 then {s with regL := 0, regH := h}
    else {s with regL := 0, regH := 0}

/-- `dec_reg_BC`, with the early returns of the source folded into nested
conditionals; the decrements go negative in Python before the reset to
0xff, so they are taken in `Int`. -/
def Z80.dec_reg_BC (s : Z80State) : Z80State :=
  let c : Int := (s.regC : Int) - 1
  if 0 ≤ c then {s with regC := c.toNat}
  else
    let b : Int := (s.regB : Int) - 1
    if 0 ≤ b then {s with regC := 0xff, regB := b.toNat}
    else {s with regC := 0xff, regB := 0xff}

/-- `Z80.push`: decrement SP, store the high byte, decrement SP, store the
low byte (the bus `pokeb` masks the value to 8 bits). -/
def Z80.push (bus : BusOps) (s : Z80State) (word : Nat) : Z80State :=
  let s := {s with regSP := mask16i ((s.regSP : Int) - 1)}
  let s := {s with b := bus.pokeb s.b s.regSP (word >>> 8)}
  let s := {s with regSP := mask16i ((s.regSP : Int) - 1)}
  {s with b := bus.pokeb s.b s.regSP word}

/-- `Z80.interruption`: the maskable-interrupt service routine. -/
def Z80.interruption (bus : BusOps) (s : Z80State) : Z80State :=
  let s := {s with lastFlagQ := false, halted := false}
  let s := {s with b := bus.interrupt_handling_time s.b 7}
  let s := {s with regR := s.regR + 1, ffIFF1 := false, ffIFF2 := false}
  let s := Z80.push bus s s.regPC
  let s :=
    if s.modeINT = IM2 then
      let r := bus.peekw s.b ((s.regI <<< 8) ||| 0xff)
      {s with b := r.2, regPC := r.1}
    else
      {s with regPC := 0x38}
  {s with memptr := (s.regPC : Int)}

/-- `Z80.nmi`: the non-maskable-interrupt service routine. -/
def Z80.nmi (bus : BusOps) (s : Z80State) : Z80State :=
  let s := {s with lastFlagQ := false, halted := false}
  let r := bus.fetch_opcode s.b s.regPC
  let s := {s with b := r.2}
  let s := {s with b := bus.interrupt_handling_time s.b 1}
  let s := {s with regR := s.regR + 1, ffIFF1 := false}
  let s := Z80.push bus s s.regPC
  {s with regPC := 0x66, memptr := (0x66 : Int)}

/-- `Z80.add16`: 16-bit addition used by ADD HL,rr; sets carry, the 5/3
flag copies and the half-carry flag, and leaves MEMPTR at `reg16 + 1`
without masking. Returns the masked sum. -/
def Z80.add16 (s : Z80State) (reg16 oper16 : Nat) : Nat × Z80State :=
  let o := oper16 + reg16
  let carry := 0xffff < o
  let flags := (s.sz5h3pnFlags &&& FLAG_SZP_MASK) ||| ((o >>> 8) &&& FLAG_53_MASK)
  let o := o &&& 0xffff
  let flags := if (o &&& 0x0fff) < (reg16 &&& 0x0fff) then flags ||| HALFCARRY_MASK else flags
  let s := {s with carryFlag := carry, sz5h3pnFlags := flags, flagQ := true}
  (o, {s with memptr := (reg16 : Int) + 1})

/-- `Z80.addhlbc` (opcode 0x09). -/
def Z80.addhlbc (bus : BusOps) (s : Z80State) : Z80State :=
  let s := {s with b := bus.address_on_bus s.b (Z80.get_pair_IR s) 7}
  let r := Z80.add16 s (Z80.get_reg_HL s) (Z80.get_reg_BC s)
  Z80.set_reg_HL r.2 r.1

/-- `Z80.cp`: compare, with the 5/3 flag copies taken from the operand. -/
def Z80.cp (s : Z80State) (oper8 : Nat) : Z80State :=
  let res0 : Int := (s.regA : Int) - ((oper8 &&& 0xff : Nat) : Int)
  let carry := res0 < 0
  let res := mask8i res0
  let flags := (sz53n_addTable oper8 &&& FLAG_53_MASK) ||| (sz53n_subTable res &&& FLAG_SZHN_MASK)
  let flags := if (s.regA &&& 0x0f) < (res &&& 0x0f) then flags ||| HALFCARRY_MASK else flags
  let flags := if 0x7f < ((s.regA ^^^ oper8) &&& (s.regA ^^^ res)) then flags ||| OVERFLOW_MASK else flags
  {s with carryFlag := carry, sz5h3pnFlags := flags, flagQ := true}

/-- The tail of `Z80.cpi` from the final flag fix-up on: it works on
`regA - memHL - borrow`, which can be negative in Python; its bit tests
`x & 0x08` and `x & 0x02` equal `(x mod 256) & mask` for any integer. -/
def Z80.cpiFlagFix (memHL : Nat) (s : Z80State) : Z80State :=
  let work : Int := (s.regA : Int) - (memHL : Int) -
    (if s.sz5h3pnFlags &&& HALFCARRY_MASK ≠ 0 then 1 else 0)
  let flags := (s.sz5h3pnFlags &&& FLAG_SZHN_MASK) ||| (mask8i work &&& BIT3_MASK)
  let flags := if mask8i work &&& ADDSUB_MASK ≠ 0 then flags ||| BIT5_MASK else flags
  let flags := if s.regC ≠ 0 ∨ s.regB ≠ 0 then flags ||| PARITY_MASK else flags
  {s with sz5h3pnFlags := flags, memptr := s.memptr + 1, flagQ := true}

/-- The body of `Z80.cpi` after the operand read: compare with carry
preserved, five contention-probe cycles at HL, increment HL, decrement BC,
then the flag fix-up. -/
def Z80.cpiAfterRead (bus : BusOps) (regHL memHL : Nat) (s : Z80State) : Z80State :=
  let carry := s.carryFlag
  let s := Z80.cp s memHL
  let s := {s with carryFlag := carry}
  let s := {s with b := bus.address_on_bus s.b regHL 5}
  Z80.cpiFlagFix memHL (Z80.dec_reg_BC (Z80.inc_reg_HL s))

/-- `Z80.cpi` (ED A1), staged as the operand read followed by
`cpiAfterRead`. -/
def Z80.cpi (bus : BusOps) (s : Z80State) : Z80State :=
  let regHL := Z80.get_reg_HL s
  let r := bus.peekb s.b regHL
  Z80.cpiAfterRead bus regHL r.1 {s with b := r.2}

/-- `Z80.jrnz` (opcode 0x20). When the branch is taken the source adds the
signed offset to PC and records MEMPTR = PC + 1 before the final masked
increment, so MEMPTR can leave [0, 65535] in either direction. -/
def Z80.jrnz (bus : BusOps) (s : Z80State) : Z80State :=
  let r := bus.peeksb s.b s.regPC
  let offset := r.1
  let s := {s with b := r.2}
  if s.sz5h3pnFlags &&& ZERO_MASK = 0 then
    let s := {s with b := bus.address_on_bus s.b s.regPC 5}
    let pc : Int := (s.regPC : Int) + offset
    let s := {s with memptr := pc + 1}
    {s with regPC := mask16i (pc + 1)}
  else
    {s with regPC := (s.regPC + 1) % 65536}

/-- `Z80.ldafromnn` (opcode 0x3A, LD A,(nn)). -/
def Z80.ldafromnn (bus : BusOps) (s : Z80State) : Z80State :=
  let r := bus.peekw s.b s.regPC
  let s := {s with b := r.2, memptr := (r.1 : Int)}
  let r2 := bus.peekb s.b r.1
  let s := {s with b := r2.2, regA := r2.1}
  {s with memptr := s.memptr + 1, regPC := (s.regPC + 2) % 65536}

/-- `Z80.halt` (opcode 0x76). -/
def Z80.halt (s : Z80State) : Z80State := {s with halted := true}

/-- The keys of the `_eddict` dispatch table of `Z80.__init__`, in source
order. A second opcode byte outside this list makes `Z80.ed` do nothing
beyond the fetch. -/
def edDictKeys : List Nat :=
  [0x40, 0x48, 0x50, 0x58, 0x60, 0x68, 0x70, 0x78,
   0x41, 0x49, 0x51, 0x59, 0x61, 0x69, 0x71, 0x79,
   0x42, 0x4a, 0x52, 0x5a, 0x62, 0x6a, 0x72, 0x7a,
   0x43, 0x4b, 0x53, 0x5b, 0x63, 0x6b, 0x73, 0x7b,
   0x44, 0x4c, 0x54, 0x5c, 0x64, 0x6c, 0x74, 0x7c,
   0x45, 0x55, 0x65, 0x75, 0x4d, 0x5d, 0x6d, 0x7d,
   0x46, 0x4e, 0x66, 0x6e, 0x56, 0x76, 0x5e, 0x7e,
   0x47, 0x4f, 0x57, 0x5f, 0x67, 0x6f,
   0xa0, 0xa1, 0xa2, 0xa3,
   0xa8, 0xa9, 0xaa, 0xab,
   0xb0, 0xb1, 0xb2, 0xb3,
   0xb8, 0xb9, 0xba, 0xbb,
   0xdd, 0xed, 0xfd]

/-- `Z80.ed` (opcode 0xED): fetch the second byte, advance PC and R, then
dispatch through `_eddict`; an opcode with no entry does nothing. The
dispatch map is a parameter constrained (in the theorems) to have exactly
the `_eddict` key set, with `CPI` the only handler spelled out here. -/
def Z80.ed (bus : BusOps) (eddict : Nat → Option (Z80State → Z80State))
    (s : Z80State) : Z80State :=
  let r := bus.fetch_opcode s.b s.regPC
  let s := {s with b := r.2}
  let s := {s with regPC := (s.regPC + 1) % 65536, regR := s.regR + 1}
  match eddict r.1 with
  | some code => code s
  | none => s

/-- The opcodes of `main_cmds` whose handlers are modelled; the checked
properties only reach these. Dispatching any other opcode yields `none`
(the Python table covers all 256 first bytes). -/
def Z80.dispatch (bus : BusOps) (eddict : Nat → Option (Z80State → Z80State))
    (opcode : Nat) (s : Z80State) : Option Z80State :=
  match opcode with
  | 0x00 => some s
  | 0x09 => some (Z80.addhlbc bus s)
  | 0x20 => some (Z80.jrnz bus s)
  | 0x3a => some (Z80.ldafromnn bus s)
  | 0x76 => some (Z80.halt s)
  | 0xed => some (Z80.ed bus eddict s)
  | _ => none

/-- The interrupt checks at the bottom of each `Z80.execute` iteration:
a pending NMI is serviced first (and skips the INT check, as the `continue`
in the source does); otherwise a maskable interrupt is accepted when IFF1
is set, no EI was just executed, and the bus asserts INT. -/
def Z80.interruptTail (bus : BusOps) (s : Z80State) : Z80State :=
  if s.activeNMI then Z80.nmi bus {s with activeNMI := false}
  else if s.ffIFF1 ∧ ¬s.pendingEI ∧ bus.is_active_INT s.b then Z80.interruption bus s
  else s

/-- One iteration of the `Z80.execute` while-loop: fetch (R is incremented
unconditionally), and unless halted advance PC and dispatch; a non-zero
`prefixOpcode` continuation is outside the modelled opcode subset, as is
any opcode `dispatch` does not know. An instruction that leaves a prefix
pending skips the interrupt tail (the `continue`). -/
def Z80.executeStep (bus : BusOps) (eddict : Nat → Option (Z80State → Z80State))
    (s : Z80State) : Option Z80State :=
  let r := bus.fetch_opcode s.b s.regPC
  let s1 := {s with b := r.2, regR := s.regR + 1}
  if s1.halted then
    some (Z80.interruptTail bus s1)
  else
    let s2 := {s1 with regPC := (s1.regPC + 1) % 65536}
    if s2.prefixOpcode = 0 then
      match Z80.dispatch bus eddict r.1 {s2 with flagQ := false, pendingEI := false} with
      | none => none
      | some s3 =>
        if s3.prefixOpcode ≠ 0 then some s3
        else some (Z80.interruptTail bus {s3 with lastFlagQ := s3.flagQ})
    else none

/-- `n` successive iterations of the `Z80.execute` loop body. -/
def Z80.executeN (bus : BusOps) (eddict : Nat → Option (Z80State → Z80State)) :
    Nat → Z80State → Option Z80State
  | 0, s => some s
  | n + 1, s => (Z80.executeStep bus eddict s).bind (Z80.executeN bus eddict n)

/-- A CPU state with cleared registers over the cleared bus state. -/
def Z0 : Z80State where
  b := B0
  regA := 0
  regB := 0
  regC := 0
  regD := 0
  regE := 0
  regH := 0
  regL := 0
  sz5h3pnFlags := 0
  carryFlag := false
  flagQ := false
  lastFlagQ := false
  regAx := 0
  regFx := 0
  regBx := 0
  regCx := 0
  regDx := 0
  regEx := 0
  regHx := 0
  regLx := 0
  regPC := 0
  regIX := 0
  regIY := 0
  regSP := 0
  regI := 0
  regR := 0
  regRbit7 := false
  ffIFF1 := false
  ffIFF2 := false
  pendingEI := false
  activeNMI := false
  halted := false
  modeINT := 0
  prefixOpcode := 0
  memptr := 0

/-- The concrete state for the C2 witness: IM1, IFF1 set, T-state 10
(inside the interrupt window), PC = 0x1234, SP = 0x9000. -/
def Z1 : Z80State :=
  {Z0 with ffIFF1 := true, ffIFF2 := true, modeINT := IM1,
           regPC := 0x1234, regSP := 0x9000, b := {B0 with tstates := 10}}

/-- The concrete halted state for C4: HALT latched, IFF1 set, IM1, PC at
0x8000 (one past a HALT opcode), SP at 0x9000, T-state 10 (inside the
interrupt window). -/
def Z2 : Z80State :=
  {Z0 with halted := true, ffIFF1 := true, ffIFF2 := true, modeINT := IM1,
           regPC := 0x8000, regSP := 0x9000, b := {B0 with tstates := 10}}

/-- The registers whose 16-bit and 8-bit ranges claim C5 asserts
(MEMPTR excluded, see the counterexample). -/
def RegRanges (x : Z80State) : Prop :=
  x.regPC < 65536 ∧ x.regSP < 65536 ∧ x.regIX < 65536 ∧ x.regIY < 65536 ∧
  x.regA < 256 ∧ x.regB < 256 ∧ x.regC < 256 ∧ x.regD < 256 ∧
  x.regE < 256 ∧ x.regH < 256 ∧ x.regL < 256 ∧ x.sz5h3pnFlags < 256

/-- The concrete state for the C5 counterexample: HL = 0xFFFF, an ADD
HL,BC opcode (0x09) at PC = 1000, executed by one iteration of the
execute loop. -/
def ZC5 : Z80State :=
  {Z0 with regH := 0xff, regL := 0xff, regC := 1, regPC := 1000,
           b := {B0 with mem := fun a => if a = 1000 then 0x09 else 0}}

/-- The state after the fetch-and-advance phase at `ZC5`. -/
def ZC5b : Z80State :=
  {ZC5 with
    b := {ZC5.b with tstates := ZC5.b.tstates + 4},
    regR := ZC5.regR + 1,
    regPC := (ZC5.regPC + 1) % 65536,
    flagQ := false,
    pendingEI := false}

/-- The concrete state for the C8 witness: 0xED 0x77 at PC = 0
(0x77 has no `_eddict` entry). -/
def ZC8 : Z80State :=
  {Z0 with b := {B0 with mem := fun a => if a = 0 then 0xED else if a = 1 then 0x77 else 0}}

def ZC7 : Z80State :=
  {Z0 with regPC := 20000,
           b := {B0 with tstates := 14335,
                         mem := fun a =>
                           if a = 20000 then 0x3a
                           else if a = 20001 then 0x00
                           else if a = 20002 then 0x40 else 0}}

/-- The state after one NOP iteration of the execute loop from `Z0`. -/
def SC10 : Z80State :=
  {Z0 with b := {B0 with tstates := 4}, regR := 1, regPC := 1}

theorem Memory.pokeb_same (m : Nat → Nat) (a v : Nat) (h : 16384 ≤ a) :
    Memory.pokeb m a v a = v % 256 := by
  unfold Memory.pokeb
  rw [if_neg (by omega)]
  simp

theorem Memory.pokeb_other (m : Nat → Nat) (a v x : Nat) (h : x ≠ a) :
    Memory.pokeb m a v x = m x := by
  unfold Memory.pokeb
  split
  · rfl
  · simp [h]

theorem Memory.pokeb_rom (m : Nat → Nat) (a v : Nat) (h : a < 16384) :
    Memory.pokeb m a v = m := by
  unfold Memory.pokeb
  rw [if_pos h]

/-! ## Fold-of-writes lookup lemmas -/

theorem foldl_upd_not_mem (ws : List (Nat × Nat)) (f : Nat → Nat) (t : Nat)
    (h : ∀ p ∈ ws, p.1 ≠ t) :
    (ws.foldl (fun g w => upd g w.1 w.2) f) t = f t := by
  induction ws generalizing f with
  | nil => rfl
  | cons w rest ih =>
    have hw : w.1 ≠ t := h w (List.mem_cons_self w rest)
    have : (upd f w.1 w.2) t = f t := by
      unfold upd
      simp [Ne.symm hw]
    rw [List.foldl_cons, ih (upd f w.1 w.2) (fun p hp => h p (List.mem_cons_of_mem w hp)), this]

theorem foldl_upd_unique (ws : List (Nat × Nat)) (f : Nat → Nat) (t v : Nat)
    (hmem : (t, v) ∈ ws) (huniq : ∀ p ∈ ws, p.1 = t → p.2 = v) :
    (ws.foldl (fun g w => upd g w.1 w.2) f) t = v := by
  induction ws generalizing f with
  | nil => cases hmem
  | cons w rest ih =>
    rw [List.foldl_cons]
    by_cases hrest : ∃ v', (t, v') ∈ rest
    · obtain ⟨v', hv'⟩ := hrest
      have hv'v : v' = v := huniq (t, v') (List.mem_cons_of_mem w hv') rfl
      subst hv'v
      exact ih (upd f w.1 w.2) hv' (fun p hp h1 => huniq p (List.mem_cons_of_mem w hp) h1)
    · have hnot : ∀ p ∈ rest, p.1 ≠ t := by
        intro p hp h1
        exact hrest ⟨p.2, by rw [← h1]; exact hp⟩
      rw [foldl_upd_not_mem rest (upd f w.1 w.2) t hnot]
      have hw : (t, v) = w := by
        rcases List.mem_cons.mp hmem with h | h
        · exact h
        · exact absurd ⟨v, h⟩ hrest
      unfold upd
      simp [← hw]

theorem foldl_upd_le (ws : List (Nat × Nat)) (f : Nat → Nat) (t b : Nat)
    (hws : ∀ p ∈ ws, p.2 ≤ b) (hf : f t ≤ b) :
    (ws.foldl (fun g w => upd g w.1 w.2) f) t ≤ b := by
  induction ws generalizing f with
  | nil => exact hf
  | cons w rest ih =>
    rw [List.foldl_cons]
    refine ih (upd f w.1 w.2) (fun p hp => hws p (List.mem_cons_of_mem w hp)) ?_
    unfold upd
    by_cases h : t = w.1
    · simp only [h, if_pos rfl]
      exact hws w (List.mem_cons_self w rest)
    · simpa [h] using hf

theorem foldl_upd_ge (ws : List (Nat × Nat)) (f : Nat → Nat) (t b : Nat)
    (hws : ∀ p ∈ ws, b ≤ p.2) (hf : b ≤ f t) :
    b ≤ (ws.foldl (fun g w => upd g w.1 w.2) f) t := by
  induction ws generalizing f with
  | nil => exact hf
  | cons w rest ih =>
    rw [List.foldl_cons]
    refine ih (upd f w.1 w.2) (fun p hp => hws p (List.mem_cons_of_mem w hp)) ?_
    unfold upd
    by_cases h : t = w.1
    · simp only [h, if_pos rfl]
      exact hws w (List.mem_cons_self w rest)
    · simpa [h] using hf

/-! ## Characterization of the contention-table writes -/

theorem mem_delayWrites (a v : Nat) :
    (a, v) ∈ delayWrites ↔
      ∃ k < 192, ∃ n < 16, ∃ p < 8, a = 14335 + 224 * k + 8 * n + p ∧ v = 6 - p := by
  unfold delayWrites TSTATES_PER_LINE
  simp only [List.mem_flatMap, List.mem_range']
  constructor
  · rintro ⟨i, ⟨k, hk, rfl⟩, n, ⟨m, hm, rfl⟩, hmem⟩
    simp only [List.mem_cons, List.not_mem_nil, or_false, Prod.mk.injEq] at hmem
    rcases hmem with ⟨h1, h2⟩ | ⟨h1, h2⟩ | ⟨h1, h2⟩ | ⟨h1, h2⟩ |
      ⟨h1, h2⟩ | ⟨h1, h2⟩ | ⟨h1, h2⟩ | ⟨h1, h2⟩
    · exact ⟨k, hk, m, hm, 0, by omega, by omega, by omega⟩
    · exact ⟨k, hk, m, hm, 1, by omega, by omega, by omega⟩
    · exact ⟨k, hk, m, hm, 2, by omega, by omega, by omega⟩
    · exact ⟨k, hk, m, hm, 3, by omega, by omega, by omega⟩
    · exact ⟨k, hk, m, hm, 4, by omega, by omega, by omega⟩
    · exact ⟨k, hk, m, hm, 5, by omega, by omega, by omega⟩
    · exact ⟨k, hk, m, hm, 6, by omega, by omega, by omega⟩
    · exact ⟨k, hk, m, hm, 7, by omega, by omega, by omega⟩
  · rintro ⟨k, hk, n, hn, p, hp, rfl, rfl⟩
    refine ⟨14335 + 224 * k, ⟨k, hk, by ring⟩, 8 * n, ⟨n, hn, by ring⟩, ?_⟩
    simp only [List.mem_cons, List.not_mem_nil, or_false, Prod.mk.injEq]
    interval_cases p
    · exact Or.inl ⟨by ring, rfl⟩
    · exact Or.inr (Or.inl ⟨by ring, rfl⟩)
    · exact Or.inr (Or.inr (Or.inl ⟨by ring, rfl⟩))
    · exact Or.inr (Or.inr (Or.inr (Or.inl ⟨by ring, rfl⟩)))
    · exact Or.inr (Or.inr (Or.inr (Or.inr (Or.inl ⟨by ring, rfl⟩))))
    · exact Or.inr (Or.inr (Or.inr (Or.inr (Or.inr (Or.inl ⟨by ring, rfl⟩)))))
    · exact Or.inr (Or.inr (Or.inr (Or.inr (Or.inr (Or.inr (Or.inl ⟨by ring, rfl⟩))))))
    · exact Or.inr (Or.inr (Or.inr (Or.inr (Or.inr (Or.inr (Or.inr ⟨by ring, rfl⟩))))))

theorem delay_tstates_outside (t : Nat) (h : t < 14335 ∨ 57247 ≤ t) :
    delay_tstates t = 0 := by
  unfold delay_tstates
  refine foldl_upd_not_mem delayWrites _ t ?_
  intro p hp heq
  have := (mem_delayWrites p.1 p.2).mp (by rwa [Prod.mk.eta])
  obtain ⟨k, hk, n, hn, q, hq, ha, _⟩ := this
  omega

theorem delay_tstates_contended (t : Nat) (h1 : 14335 ≤ t) (h2 : t < 57247)
    (h3 : (t - 14335) % 224 < 128) :
    delay_tstates t = 6 - (t - 14335) % 8 := by
  unfold delay_tstates
  have hd : t - 14335 = 224 * ((t - 14335) / 224) + 8 * ((t - 14335) % 224 / 8)
      + (t - 14335) % 224 % 8 := by omega
  refine foldl_upd_unique delayWrites _ t _ ?_ ?_
  · rw [mem_delayWrites]
    refine ⟨(t - 14335) / 224, by omega, (t - 14335) % 224 / 8, by omega,
      (t - 14335) % 224 % 8, by omega, by omega, by omega⟩
  · intro p hp heq
    have := (mem_delayWrites p.1 p.2).mp (by rwa [Prod.mk.eta])
    obtain ⟨k, hk, n, hn, q, hq, ha, hv⟩ := this
    omega

theorem delay_tstates_uncontended_row (t : Nat) (h1 : 14335 ≤ t) (h2 : t < 57247)
    (h3 : 128 ≤ (t - 14335) % 224) :
    delay_tstates t = 0 := by
  unfold delay_tstates
  refine foldl_upd_not_mem delayWrites _ t ?_
  intro p hp heq
  have := (mem_delayWrites p.1 p.2).mp (by rwa [Prod.mk.eta])
  obtain ⟨k, hk, n, hn, q, hq, ha, _⟩ := this
  omega

theorem delay_tstates_le_six (t : Nat) : delay_tstates t ≤ 6 := by
  unfold delay_tstates
  refine foldl_upd_le delayWrites _ t 6 ?_ (by omega)
  intro p hp
  have := (mem_delayWrites p.1 p.2).mp (by rwa [Prod.mk.eta])
  obtain ⟨k, _, n, _, q, _, _, hv⟩ := this
  omega

/-! ## Characterization of the screen-byte schedule -/

theorem mem_screenWrites (i v : Nat) :
    (i, v) ∈ screenWrites ↔
      ∃ k < 192, ∃ m < 16, i = 16 * k + m ∧ v = 14335 + 224 * k + 8 * m + 2 := by
  unfold screenWrites TSTATES_PER_LINE
  simp only [List.mem_flatMap, List.mem_map, List.mem_range, Prod.mk.injEq]
  constructor
  · rintro ⟨k, hk, m, hm, h1, h2⟩
    exact ⟨k, hk, m, hm, h1.symm, h2.symm⟩
  · rintro ⟨k, hk, m, hm, h1, h2⟩
    exact ⟨k, hk, m, hm, h1.symm, h2.symm⟩

theorem screen_byte_tstate_ge (i : Nat) : 14337 ≤ screen_byte_tstate i := by
  unfold screen_byte_tstate
  refine foldl_upd_ge screenWrites _ i 14337 ?_ (by unfold TSTATES_PER_INTERRUPT; omega)
  intro p hp
  have := (mem_screenWrites p.1 p.2).mp (by rwa [Prod.mk.eta])
  obtain ⟨k, _, m, _, _, hv⟩ := this
  omega

theorem screen_byte_tstate_closed (i : Nat) (h : i < 3072) :
    screen_byte_tstate i = 14335 + 224 * (i / 16) + 8 * (i % 16) + 2 := by
  unfold screen_byte_tstate
  refine foldl_upd_unique screenWrites _ i _ ?_ ?_
  · rw [mem_screenWrites]
    exact ⟨i / 16, by omega, i % 16, by omega, by omega, rfl⟩
  · intro p hp heq
    have := (mem_screenWrites p.1 p.2).mp (by rwa [Prod.mk.eta])
    obtain ⟨k, hk, m, hm, h1, h2⟩ := this
    omega

/-! ### Projection lemmas for the contended bus operations

Every timed operation only ever changes the clock, the raster cursor and
(for writes) the memory; the lemmas below expose each component. -/

theorem screenCheck_small (s : BusState) (h : s.tstates < 14337) : screenCheck s = s := by
  unfold screenCheck
  rw [if_neg]
  intro hc
  exact absurd (le_trans (screen_byte_tstate_ge s.nextScreenByteIndex) hc) (by omega)

theorem screenCheck_tstates (s : BusState) : (screenCheck s).tstates = s.tstates := by
  unfold screenCheck
  split <;> rfl

theorem screenCheck_mem (s : BusState) : (screenCheck s).mem = s.mem := by
  unfold screenCheck
  split <;> rfl

theorem screenCatchUp_tstates (fuel : Nat) (s : BusState) :
    (screenCatchUp fuel s).tstates = s.tstates := by
  induction fuel generalizing s with
  | zero => rfl
  | succ n ih =>
    rw [screenCatchUp]
    split
    · rw [ih]
    · rfl

theorem screenCatchUp_mem (fuel : Nat) (s : BusState) :
    (screenCatchUp fuel s).mem = s.mem := by
  induction fuel generalizing s with
  | zero => rfl
  | succ n ih =>
    rw [screenCatchUp]
    split
    · rw [ih]
    · rfl

theorem contendAdd_tstates (s : BusState) (a base : Nat) :
    (contendAdd s a base).tstates =
      s.tstates + (if 16384 ≤ a ∧ a < 32768 then delay_tstates s.tstates else 0) + base := by
  unfold contendAdd
  split
  · rw [screenCheck_tstates]
  · rw [screenCheck_tstates]
    dsimp only
    omega

theorem contendAdd_mem (s : BusState) (a base : Nat) :
    (contendAdd s a base).mem = s.mem := by
  unfold contendAdd
  split <;> rw [screenCheck_mem]

theorem ZX_fetch_opcode_tstates (s : BusState) (a : Nat) :
    (ZXSpectrum48.fetch_opcode s a).2.tstates =
      s.tstates + (if 16384 ≤ a ∧ a < 32768 then delay_tstates s.tstates else 0) + 4 := by
  simp only [ZXSpectrum48.fetch_opcode]
  rw [contendAdd_tstates]

theorem ZX_fetch_opcode_mem (s : BusState) (a : Nat) :
    (ZXSpectrum48.fetch_opcode s a).2.mem = s.mem := by
  simp only [ZXSpectrum48.fetch_opcode]
  rw [contendAdd_mem]

theorem ZX_fetch_opcode_val (s : BusState) (a : Nat) :
    (ZXSpectrum48.fetch_opcode s a).1 = Memory.peekb s.mem a := by
  simp only [ZXSpectrum48.fetch_opcode]
  rw [contendAdd_mem]

theorem ZX_peekb_tstates (s : BusState) (a : Nat) :
    (ZXSpectrum48.peekb s a).2.tstates =
      s.tstates + (if 16384 ≤ a ∧ a < 32768 then delay_tstates s.tstates else 0) + 3 := by
  simp only [ZXSpectrum48.peekb]
  rw [contendAdd_tstates]

theorem ZX_peekb_mem (s : BusState) (a : Nat) :
    (ZXSpectrum48.peekb s a).2.mem = s.mem := by
  simp only [ZXSpectrum48.peekb]
  rw [contendAdd_mem]

theorem ZX_peekb_val (s : BusState) (a : Nat) :
    (ZXSpectrum48.peekb s a).1 = Memory.peekb s.mem a := by
  simp only [ZXSpectrum48.peekb]
  rw [contendAdd_mem]

theorem ZX_peeksb_tstates (s : BusState) (a : Nat) :
    (ZXSpectrum48.peeksb s a).2.tstates =
      s.tstates + (if 16384 ≤ a ∧ a < 32768 then delay_tstates s.tstates else 0) + 3 := by
  simp only [ZXSpectrum48.peeksb]
  rw [contendAdd_tstates]

theorem ZX_peeksb_mem (s : BusState) (a : Nat) :
    (ZXSpectrum48.peeksb s a).2.mem = s.mem := by
  simp only [ZXSpectrum48.peeksb]
  rw [contendAdd_mem]

theorem ZX_peeksb_val (s : BusState) (a : Nat) :
    (ZXSpectrum48.peeksb s a).1 = Memory.peeksb s.mem a := by
  simp only [ZXSpectrum48.peeksb]
  rw [contendAdd_mem]

theorem ZX_pokeb_tstates (s : BusState) (a v : Nat) :
    (ZXSpectrum48.pokeb s a v).tstates =
      s.tstates + (if 16384 ≤ a ∧ a < 32768 then delay_tstates s.tstates else 0) + 3 := by
  simp only [ZXSpectrum48.pokeb]
  rw [contendAdd_tstates]

theorem ZX_pokeb_mem (s : BusState) (a v : Nat) :
    (ZXSpectrum48.pokeb s a v).mem = Memory.pokeb s.mem a (v % 256) := by
  simp only [ZXSpectrum48.pokeb]
  rw [contendAdd_mem]

theorem ZX_peekw_tstates (s : BusState) (a : Nat) :
    (ZXSpectrum48.peekw s a).2.tstates =
      s.tstates + (if 16384 ≤ a ∧ a < 32768 then delay_tstates s.tstates else 0) + 3 +
        (if 16384 ≤ (a + 1) % 65536 ∧ (a + 1) % 65536 < 32768 then
          delay_tstates (s.tstates +
            (if 16384 ≤ a ∧ a < 32768 then delay_tstates s.tstates else 0) + 3)
        else 0) + 3 := by
  simp only [ZXSpectrum48.peekw]
  rw [contendAdd_tstates, contendAdd_tstates]

theorem ZX_peekw_mem (s : BusState) (a : Nat) :
    (ZXSpectrum48.peekw s a).2.mem = s.mem := by
  simp only [ZXSpectrum48.peekw]
  rw [contendAdd_mem, contendAdd_mem]

theorem ZX_peekw_val (s : BusState) (a : Nat) :
    (ZXSpectrum48.peekw s a).1 =
      (Memory.peekb s.mem ((a + 1) % 65536) <<< 8) + Memory.peekb s.mem a := by
  simp only [ZXSpectrum48.peekw]
  rw [contendAdd_mem, contendAdd_mem]

theorem ZX_pokew_mem (s : BusState) (a v : Nat) :
    (ZXSpectrum48.pokew s a v).mem =
      Memory.pokeb (Memory.pokeb s.mem a (v % 256)) ((a + 1) % 65536) (v >>> 8) := by
  simp only [ZXSpectrum48.pokew]
  rw [contendAdd_mem]
  dsimp only
  rw [contendAdd_mem]

theorem ZX_pokew_tstates (s : BusState) (a v : Nat) :
    (ZXSpectrum48.pokew s a v).tstates =
      s.tstates + (if 16384 ≤ a ∧ a < 32768 then delay_tstates s.tstates else 0) + 3 +
        (if 16384 ≤ (a + 1) % 65536 ∧ (a + 1) % 65536 < 32768 then
          delay_tstates (s.tstates +
            (if 16384 ≤ a ∧ a < 32768 then delay_tstates s.tstates else 0) + 3)
        else 0) + 3 := by
  simp only [ZXSpectrum48.pokew]
  rw [contendAdd_tstates]
  dsimp only
  rw [contendAdd_tstates]

/-- For a clock value with room below the first contended T-state, both
halves of `pokew` incur no contention delay. -/
theorem ZX_pokew_tstates_small (s : BusState) (a v : Nat) (h : s.tstates + 3 < 14335) :
    (ZXSpectrum48.pokew s a v).tstates = s.tstates + 6 := by
  rw [ZX_pokew_tstates]
  rw [delay_tstates_outside s.tstates (by omega)]
  rw [ite_self]
  rw [delay_tstates_outside (s.tstates + 0 + 3) (by omega)]
  rw [ite_self]

/-- For a clock value with room below the first contended T-state, both
halves of `peekw` incur no contention delay. -/
theorem ZX_peekw_tstates_small (s : BusState) (a : Nat) (h : s.tstates + 3 < 14335) :
    (ZXSpectrum48.peekw s a).2.tstates = s.tstates + 6 := by
  rw [ZX_peekw_tstates]
  rw [delay_tstates_outside s.tstates (by omega)]
  rw [ite_self]
  rw [delay_tstates_outside (s.tstates + 0 + 3) (by omega)]
  rw [ite_self]

theorem ZX_interrupt_handling_time_tstates (s : BusState) (t : Nat) :
    (ZXSpectrum48.interrupt_handling_time s t).tstates = s.tstates + t := by
  unfold ZXSpectrum48.interrupt_handling_time
  rw [screenCatchUp_tstates]

theorem ZX_interrupt_handling_time_mem (s : BusState) (t : Nat) :
    (ZXSpectrum48.interrupt_handling_time s t).mem = s.mem := by
  unfold ZXSpectrum48.interrupt_handling_time
  rw [screenCatchUp_mem]

/-! ## Claim C3: the interrupt-window predicate -/

/-- Claim C3 (counterexample): the claim asserts `is_active_INT()` returns
true for every counter value in {0, ..., 23}, but at counter 0 the code
evaluates `0 < 0 < 24`, which is false. -/
theorem C3_interrupt_window_counterexample :
    B0.tstates = 0 ∧ ZXSpectrum48.is_active_INT B0 = false := ⟨rfl, rfl⟩

theorem isActiveINT_window (b : BusState) :
    ZXSpectrum48.is_active_INT b = true ↔
      (0 < b.tstates ∧ b.tstates < 24) ∨ (69888 < b.tstates ∧ b.tstates < 69912) := by
  unfold ZXSpectrum48.is_active_INT TSTATES_PER_INTERRUPT INTERRUPT_LENGTH
  by_cases h : 69888 ≤ b.tstates
  · simp only [if_pos h, decide_eq_true_eq]
    omega
  · simp only [if_neg h, decide_eq_true_eq]
    omega

/-- Claim C3 (amended): `is_active_INT()` returns true exactly when the
T-state counter lies strictly between 0 and 24, or strictly between
TSTATES_PER_INTERRUPT and TSTATES_PER_INTERRUPT + 24 (a single frame
length is subtracted, not a general modulo); in particular it returns
false at counter 0 and at counter TSTATES_PER_INTERRUPT. -/
theorem C3_interrupt_window (s : BusState) :
    ZXSpectrum48.is_active_INT s = true ↔
      (0 < s.tstates ∧ s.tstates < 24) ∨ (69888 < s.tstates ∧ s.tstates < 69912) :=
  isActiveINT_window s

/-! ## Claim C9: word-sized bus operations and the clock -/

/-- Claim C9 (code evaluated at the failing input): on the plain
`ClockAndBusAccess` bus, `pokew` does not advance the T-state counter at
all (it stores both bytes directly through `memory.pokeb`), while `peekw`
advances it by 6 and the contended bus advances it by 6 for both `peekw`
and `pokew` when no contention delay applies. The claim that `pokew`
advances the counter by two 3-T-state accesses on the plain bus fails at
address 30000, value 0x1234, counter 0. -/
theorem C9_pokew_clock_divergence :
    (ClockAndBusAccess.pokew B0 30000 0x1234).tstates = 0 ∧
      ((ClockAndBusAccess.peekw B0 30000).2.tstates = 6 ∧
        (ZXSpectrum48.pokew B0 30000 0x1234).tstates = 6 ∧
        (ZXSpectrum48.peekw B0 30000).2.tstates = 6) := by
  refine ⟨rfl, rfl, ?_, ?_⟩
  · rw [ZX_pokew_tstates_small B0 30000 0x1234 (by decide)]
    rfl
  · rw [ZX_peekw_tstates_small B0 30000 (by decide)]
    rfl

/-! ## Claim C6: the pokew/peekw round trip -/

/-- Claim C6 (counterexample): at address 65535 the second byte of `pokew`
wraps to address 0, which lies in the ROM region and is silently
discarded, so the round trip loses the high byte: storing 256 at 65535
and reading the word back yields 0, not 256. -/
theorem C6_roundtrip_counterexample :
    (ZXSpectrum48.peekw (ZXSpectrum48.pokew B0 65535 256) 65535).1 = 0 := by
  rw [ZX_peekw_val, ZX_pokew_mem]
  norm_num [Memory.pokeb, Memory.peekb, B0]

/-- Claim C6 (amended): for every address a with 16384 ≤ a < 65535 and
every value v in [0, 65535], performing `pokew(a, v)` on the contended bus
and then `peekw(a)` returns v. (At a = 65535 the high byte wraps to ROM
address 0 and the write is discarded, so the original claim's bound
a ≥ 16384 must exclude the top address.) -/
theorem C6_pokew_peekw_roundtrip (s : BusState) (a v : Nat)
    (ha1 : 16384 ≤ a) (ha2 : a < 65535) (hv : v < 65536) :
    (ZXSpectrum48.peekw (ZXSpectrum48.pokew s a v) a).1 = v := by
  have hwrap : (a + 1) % 65536 = a + 1 := by omega
  rw [ZX_peekw_val, ZX_pokew_mem, hwrap]
  unfold Memory.peekb
  rw [Memory.pokeb_same _ _ _ (by omega)]
  rw [Memory.pokeb_other _ _ _ _ (by omega : a ≠ a + 1)]
  rw [Memory.pokeb_same _ _ _ (by omega)]
  rw [Nat.shiftRight_eq_div_pow, Nat.shiftLeft_eq]
  norm_num
  omega

theorem C6_pokew_peekw_roundtrip_witness :
    16384 ≤ 30000 ∧ 30000 < 65535 ∧ 0x1234 < 65536 ∧
      (ZXSpectrum48.peekw (ZXSpectrum48.pokew B0 30000 0x1234) 30000).1 = 0x1234 :=
  ⟨by decide, by decide, by decide,
    C6_pokew_peekw_roundtrip B0 30000 0x1234 (by decide) (by decide) (by decide)⟩

/-! ## Arithmetic helpers for 16-bit masking -/

theorem mask16i_sub_one (n : Nat) (h1 : 1 ≤ n) (h2 : n < 65536) :
    mask16i ((n : Int) - 1) = n - 1 := by
  unfold mask16i
  omega

/-! ## Claim C2: servicing a maskable interrupt -/

theorem interruption_spectrum (s : Z80State)
    (hint : ZXSpectrum48.is_active_INT s.b = true)
    (hSP1 : 16386 ≤ s.regSP) (hSP2 : s.regSP < 65536) (hPC : s.regPC < 65536) :
    (Z80.interruption spectrumBus s).ffIFF1 = false ∧
    (Z80.interruption spectrumBus s).ffIFF2 = false ∧
    (Z80.interruption spectrumBus s).halted = false ∧
    (Z80.interruption spectrumBus s).regSP = s.regSP - 2 ∧
    (Z80.interruption spectrumBus s).b.mem (s.regSP - 1) = s.regPC / 256 ∧
    (Z80.interruption spectrumBus s).b.mem (s.regSP - 2) = s.regPC % 256 ∧
    (∀ x, x ≠ s.regSP - 1 → x ≠ s.regSP - 2 →
      (Z80.interruption spectrumBus s).b.mem x = s.b.mem x) ∧
    ((s.modeINT = IM0 ∨ s.modeINT = IM1) →
      (Z80.interruption spectrumBus s).regPC = 0x38 ∧
      (Z80.interruption spectrumBus s).memptr = (0x38 : Int) ∧
      (Z80.interruption spectrumBus s).b.tstates = s.b.tstates + 13) ∧
    (s.modeINT = IM2 →
      (Z80.interruption spectrumBus s).regPC =
        (Memory.peekb (Z80.interruption spectrumBus s).b.mem
            ((((s.regI <<< 8) ||| 0xff) + 1) % 65536) <<< 8) +
          Memory.peekb (Z80.interruption spectrumBus s).b.mem ((s.regI <<< 8) ||| 0xff) ∧
      (Z80.interruption spectrumBus s).memptr =
        ((Z80.interruption spectrumBus s).regPC : Int)) := by
  have hwin := (isActiveINT_window s.b).mp hint
  have hsp1 : mask16i ((s.regSP : Int) - 1) = s.regSP - 1 :=
    mask16i_sub_one s.regSP (by omega) (by omega)
  have hsp2 : mask16i (((s.regSP - 1 : Nat) : Int) - 1) = s.regSP - 2 := by
    rw [mask16i_sub_one (s.regSP - 1) (by omega) (by omega)]
    omega
  have hd1 : delay_tstates (s.b.tstates + 7) = 0 :=
    delay_tstates_outside _ (by omega)
  have hd2 : delay_tstates (s.b.tstates + 7 + 0 + 3) = 0 :=
    delay_tstates_outside _ (by omega)
  by_cases hm : s.modeINT = IM2
  · unfold Z80.interruption Z80.push
    dsimp only [spectrumBus]
    rw [if_pos hm, hsp1, hsp2]
    dsimp only
    refine ⟨rfl, rfl, rfl, rfl, ?_, ?_, ?_, ?_, ?_⟩
    · rw [ZX_peekw_mem, ZX_pokeb_mem, ZX_pokeb_mem, ZX_interrupt_handling_time_mem]
      rw [Memory.pokeb_other _ _ _ _ (by omega), Memory.pokeb_same _ _ _ (by omega)]
      omega
    · rw [ZX_peekw_mem, ZX_pokeb_mem, ZX_pokeb_mem, ZX_interrupt_handling_time_mem]
      rw [Memory.pokeb_same _ _ _ (by omega)]
      omega
    · intro x hx1 hx2
      rw [ZX_peekw_mem, ZX_pokeb_mem, ZX_pokeb_mem, ZX_interrupt_handling_time_mem]
      rw [Memory.pokeb_other _ _ _ _ hx2, Memory.pokeb_other _ _ _ _ hx1]
    · intro hmode
      rcases hmode with h | h
      · rw [hm] at h
        exact absurd h (by decide)
      · rw [hm] at h
        exact absurd h (by decide)
    · intro _
      refine ⟨?_, rfl⟩
      rw [ZX_peekw_val, ZX_peekw_mem]
  · unfold Z80.interruption Z80.push
    dsimp only [spectrumBus]
    rw [if_neg hm, hsp1, hsp2]
    dsimp only
    refine ⟨rfl, rfl, rfl, rfl, ?_, ?_, ?_, ?_, ?_⟩
    · rw [ZX_pokeb_mem, ZX_pokeb_mem, ZX_interrupt_handling_time_mem]
      rw [Memory.pokeb_other _ _ _ _ (by omega), Memory.pokeb_same _ _ _ (by omega)]
      omega
    · rw [ZX_pokeb_mem, ZX_pokeb_mem, ZX_interrupt_handling_time_mem]
      rw [Memory.pokeb_same _ _ _ (by omega)]
      omega
    · intro x hx1 hx2
      rw [ZX_pokeb_mem, ZX_pokeb_mem, ZX_interrupt_handling_time_mem]
      rw [Memory.pokeb_other _ _ _ _ hx2, Memory.pokeb_other _ _ _ _ hx1]
    · intro _
      refine ⟨rfl, rfl, ?_⟩
      rw [ZX_pokeb_tstates, ZX_pokeb_tstates, ZX_interrupt_handling_time_tstates]
      rw [hd1, ite_self, hd2]
      rw [ite_self]
    · intro hmode
      exact absurd hmode hm

/-- Claim C2: with IFF1 set, pendingEI clear and the bus asserting a
maskable interrupt, `Z80.interruption` pushes PC onto the stack, clears
IFF1 and IFF2, jumps (with MEMPTR) to 0x0038 in modes 0 and 1 — adding
exactly 13 T-states there, contention being absent at every T-state of the
interrupt window — and in mode 2 jumps to the 16-bit word read from
address (I<<8)|0xFF. The stack is assumed inside RAM and the registers
within their 16-bit ranges. -/
theorem C2_maskable_interrupt (s : Z80State)
    (hIFF1 : s.ffIFF1 = true) (hEI : s.pendingEI = false)
    (hint : ZXSpectrum48.is_active_INT s.b = true)
    (hSP1 : 16386 ≤ s.regSP) (hSP2 : s.regSP < 65536) (hPC : s.regPC < 65536) :
    (Z80.interruption spectrumBus s).ffIFF1 = false ∧
    (Z80.interruption spectrumBus s).ffIFF2 = false ∧
    (Z80.interruption spectrumBus s).halted = false ∧
    (Z80.interruption spectrumBus s).regSP = s.regSP - 2 ∧
    (Z80.interruption spectrumBus s).b.mem (s.regSP - 1) = s.regPC / 256 ∧
    (Z80.interruption spectrumBus s).b.mem (s.regSP - 2) = s.regPC % 256 ∧
    (∀ x, x ≠ s.regSP - 1 → x ≠ s.regSP - 2 →
      (Z80.interruption spectrumBus s).b.mem x = s.b.mem x) ∧
    ((s.modeINT = IM0 ∨ s.modeINT = IM1) →
      (Z80.interruption spectrumBus s).regPC = 0x38 ∧
      (Z80.interruption spectrumBus s).memptr = (0x38 : Int) ∧
      (Z80.interruption spectrumBus s).b.tstates = s.b.tstates + 13) ∧
    (s.modeINT = IM2 →
      (Z80.interruption spectrumBus s).regPC =
        (Memory.peekb (Z80.interruption spectrumBus s).b.mem
            ((((s.regI <<< 8) ||| 0xff) + 1) % 65536) <<< 8) +
          Memory.peekb (Z80.interruption spectrumBus s).b.mem ((s.regI <<< 8) ||| 0xff) ∧
      (Z80.interruption spectrumBus s).memptr =
        ((Z80.interruption spectrumBus s).regPC : Int)) :=
  interruption_spectrum s hint hSP1 hSP2 hPC

theorem C2_maskable_interrupt_witness :
    (Z1.ffIFF1 = true ∧ Z1.pendingEI = false ∧
      ZXSpectrum48.is_active_INT Z1.b = true ∧
      16386 ≤ Z1.regSP ∧ Z1.regSP < 65536 ∧ Z1.regPC < 65536) ∧
    ((Z80.interruption spectrumBus Z1).ffIFF1 = false ∧
    (Z80.interruption spectrumBus Z1).ffIFF2 = false ∧
    (Z80.interruption spectrumBus Z1).halted = false ∧
    (Z80.interruption spectrumBus Z1).regSP = Z1.regSP - 2 ∧
    (Z80.interruption spectrumBus Z1).b.mem (Z1.regSP - 1) = Z1.regPC / 256 ∧
    (Z80.interruption spectrumBus Z1).b.mem (Z1.regSP - 2) = Z1.regPC % 256 ∧
    (∀ x, x ≠ Z1.regSP - 1 → x ≠ Z1.regSP - 2 →
      (Z80.interruption spectrumBus Z1).b.mem x = Z1.b.mem x) ∧
    ((Z1.modeINT = IM0 ∨ Z1.modeINT = IM1) →
      (Z80.interruption spectrumBus Z1).regPC = 0x38 ∧
      (Z80.interruption spectrumBus Z1).memptr = (0x38 : Int) ∧
      (Z80.interruption spectrumBus Z1).b.tstates = Z1.b.tstates + 13) ∧
    (Z1.modeINT = IM2 →
      (Z80.interruption spectrumBus Z1).regPC =
        (Memory.peekb (Z80.interruption spectrumBus Z1).b.mem
            ((((Z1.regI <<< 8) ||| 0xff) + 1) % 65536) <<< 8) +
          Memory.peekb (Z80.interruption spectrumBus Z1).b.mem ((Z1.regI <<< 8) ||| 0xff) ∧
      (Z80.interruption spectrumBus Z1).memptr =
        ((Z80.interruption spectrumBus Z1).regPC : Int))) :=
  ⟨⟨rfl, rfl, by decide, by decide, by decide, by decide⟩,
    C2_maskable_interrupt Z1 rfl rfl (by decide) (by decide) (by decide) (by decide)⟩

/-! ## Small-clock forms of the contended operations

Below the first contended T-state (14335) every contention delay is zero
and the raster cursor (whose first schedule entry is 14337) never
advances, so each operation reduces to a plain clock increment. -/

theorem screenCatchUp_small (fuel : Nat) (s : BusState) (h : s.tstates < 14337) :
    screenCatchUp fuel s = s := by
  cases fuel with
  | zero => rfl
  | succ n =>
    rw [screenCatchUp]
    rw [if_neg]
    intro hc
    exact absurd (le_trans (screen_byte_tstate_ge s.nextScreenByteIndex) hc) (by omega)

theorem screenCheck_hit (s : BusState)
    (h : screen_byte_tstate s.nextScreenByteIndex ≤ s.tstates) :
    screenCheck s = {s with nextScreenByteIndex := s.nextScreenByteIndex + 1} := by
  unfold screenCheck
  rw [if_pos h]

theorem contendAdd_small (s : BusState) (a base : Nat) (h : s.tstates + base < 14337)
    (hd : s.tstates < 14335) :
    contendAdd s a base = {s with tstates := s.tstates + base} := by
  unfold contendAdd
  split
  · rw [delay_tstates_outside s.tstates (by omega), Nat.add_zero]
    exact screenCheck_small _ (by dsimp only; omega)
  · exact screenCheck_small _ (by dsimp only; omega)

theorem ZX_fetch_opcode_small (s : BusState) (a : Nat) (h : s.tstates + 4 < 14335) :
    ZXSpectrum48.fetch_opcode s a = (Memory.peekb s.mem a, {s with tstates := s.tstates + 4}) := by
  unfold ZXSpectrum48.fetch_opcode
  rw [contendAdd_small s a 4 (by omega) (by omega)]

theorem ZX_peekb_small (s : BusState) (a : Nat) (h : s.tstates + 3 < 14335) :
    ZXSpectrum48.peekb s a = (Memory.peekb s.mem a, {s with tstates := s.tstates + 3}) := by
  unfold ZXSpectrum48.peekb
  rw [contendAdd_small s a 3 (by omega) (by omega)]

theorem ZX_peeksb_small (s : BusState) (a : Nat) (h : s.tstates + 3 < 14335) :
    ZXSpectrum48.peeksb s a = (Memory.peeksb s.mem a, {s with tstates := s.tstates + 3}) := by
  unfold ZXSpectrum48.peeksb
  rw [contendAdd_small s a 3 (by omega) (by omega)]

theorem ZX_pokeb_small (s : BusState) (a v : Nat) (h : s.tstates + 3 < 14335) :
    ZXSpectrum48.pokeb s a v =
      {s with tstates := s.tstates + 3, mem := Memory.pokeb s.mem a (v % 256)} := by
  unfold ZXSpectrum48.pokeb
  rw [contendAdd_small s a 3 (by omega) (by omega)]

theorem ZX_peekw_small (s : BusState) (a : Nat) (h : s.tstates + 6 < 14335) :
    ZXSpectrum48.peekw s a =
      ((Memory.peekb s.mem ((a + 1) % 65536) <<< 8) + Memory.peekb s.mem a,
        {s with tstates := s.tstates + 6}) := by
  unfold ZXSpectrum48.peekw
  rw [contendAdd_small s a 3 (by omega) (by omega)]
  dsimp only
  rw [contendAdd_small _ _ 3 (by dsimp only; omega) (by dsimp only; omega)]

theorem foldl_delay_small (n : Nat) (s : BusState) (h : s.tstates + n < 14335) :
    (List.range n).foldl
      (fun st _ => {st with tstates := st.tstates + delay_tstates st.tstates + 1}) s =
      {s with tstates := s.tstates + n} := by
  induction n with
  | zero => rfl
  | succ k ih =>
    rw [List.range_succ, List.foldl_append, ih (by omega)]
    dsimp only [List.foldl]
    rw [delay_tstates_outside (s.tstates + k) (by omega), Nat.add_zero, Nat.add_assoc]

theorem ZX_address_on_bus_small (s : BusState) (a t : Nat) (h : s.tstates + t < 14335) :
    ZXSpectrum48.address_on_bus s a t = {s with tstates := s.tstates + t} := by
  unfold ZXSpectrum48.address_on_bus
  split
  · rw [foldl_delay_small t s (by omega)]
    exact screenCatchUp_small _ _ (by dsimp only; omega)
  · exact screenCatchUp_small _ _ (by dsimp only; omega)

theorem ZX_interrupt_handling_time_small (s : BusState) (t : Nat)
    (h : s.tstates + t < 14337) :
    ZXSpectrum48.interrupt_handling_time s t = {s with tstates := s.tstates + t} := by
  unfold ZXSpectrum48.interrupt_handling_time
  exact screenCatchUp_small _ _ (by dsimp only; omega)

/-! ## Claim C4: the HALT latch -/

theorem interruptTail_noint (bus : BusOps) (s : Z80State)
    (hnmi : s.activeNMI = false) (hIFF : s.ffIFF1 = false) :
    Z80.interruptTail bus s = s := by
  unfold Z80.interruptTail
  rw [if_neg (by simp [hnmi]), if_neg (by simp [hIFF])]

theorem interruptTail_int (bus : BusOps) (s : Z80State)
    (hnmi : s.activeNMI = false) (hIFF : s.ffIFF1 = true)
    (hEI : s.pendingEI = false) (hint : bus.is_active_INT s.b = true) :
    Z80.interruptTail bus s = Z80.interruption bus s := by
  unfold Z80.interruptTail
  rw [if_neg (by simp [hnmi]), if_pos (by simp [hIFF, hEI, hint])]

/-- A halted iteration of the execute loop: the fetch happens (4 T-states,
R advances) but PC does not move and no instruction is dispatched; the
iteration ends in the interrupt checks. -/
theorem executeStep_halted_eq (eddict : Nat → Option (Z80State → Z80State))
    (s : Z80State) (hhalt : s.halted = true) (hsm : s.b.tstates + 4 < 14335) :
    Z80.executeStep spectrumBus eddict s =
      some (Z80.interruptTail spectrumBus
        {s with b := {s.b with tstates := s.b.tstates + 4}, regR := s.regR + 1}) := by
  unfold Z80.executeStep
  dsimp only [spectrumBus]
  rw [ZX_fetch_opcode_small s.b s.regPC (by omega)]
  dsimp only
  rw [if_pos hhalt]

/-- Claim C4 (amended): while the HALT latch is set, PC does not advance
and each attempted opcode fetch consumes four T-states (absent contention
and pending interrupts); when a maskable interrupt is then accepted, the
service routine clears the HALT latch and pushes PC unchanged — PC already
points one past the HALT opcode, having been advanced when HALT itself was
executed, so no further increment happens before the push. -/
theorem C4_halt_behaviour (eddict : Nat → Option (Z80State → Z80State))
    (s : Z80State) (hhalt : s.halted = true) (hnmi : s.activeNMI = false)
    (hsm : s.b.tstates + 4 < 24)
    (hSP1 : 16386 ≤ s.regSP) (hSP2 : s.regSP < 65536) (hPC : s.regPC < 65536) :
    (s.ffIFF1 = false →
      Z80.executeStep spectrumBus eddict s =
        some {s with b := {s.b with tstates := s.b.tstates + 4}, regR := s.regR + 1}) ∧
    (s.ffIFF1 = true → s.pendingEI = false →
      ((Z80.executeStep spectrumBus eddict s).map (fun x => x.halted) = some false ∧
       (Z80.executeStep spectrumBus eddict s).map (fun x => x.regPC) =
         some ((Z80.interruption spectrumBus
           {s with b := {s.b with tstates := s.b.tstates + 4}, regR := s.regR + 1}).regPC) ∧
       (Z80.executeStep spectrumBus eddict s).map (fun x => x.b.mem (s.regSP - 1)) =
         some (s.regPC / 256) ∧
       (Z80.executeStep spectrumBus eddict s).map (fun x => x.b.mem (s.regSP - 2)) =
         some (s.regPC % 256) ∧
       ((s.modeINT = IM0 ∨ s.modeINT = IM1) →
         (Z80.executeStep spectrumBus eddict s).map (fun x => x.regPC) = some 0x38 ∧
         (Z80.executeStep spectrumBus eddict s).map (fun x => x.b.tstates) =
           some (s.b.tstates + 17)))) := by
  constructor
  · intro hIFF
    rw [executeStep_halted_eq eddict s hhalt (by omega)]
    rw [interruptTail_noint spectrumBus
      {s with b := {s.b with tstates := s.b.tstates + 4}, regR := s.regR + 1} hnmi hIFF]
  · intro hIFF hEI
    rw [executeStep_halted_eq eddict s hhalt (by omega)]
    have hint : ZXSpectrum48.is_active_INT
        ({s with b := {s.b with tstates := s.b.tstates + 4}, regR := s.regR + 1}).b = true := by
      rw [isActiveINT_window]
      dsimp only
      omega
    rw [interruptTail_int spectrumBus
      {s with b := {s.b with tstates := s.b.tstates + 4}, regR := s.regR + 1} hnmi hIFF hEI hint]
    have hspec := interruption_spectrum
      {s with b := {s.b with tstates := s.b.tstates + 4}, regR := s.regR + 1}
      hint hSP1 hSP2 hPC
    obtain ⟨h1, h2, h3, h4, h5, h6, h7, h8, h9⟩ := hspec
    refine ⟨by rw [Option.map_some']; rw [h3], by rw [Option.map_some'], ?_, ?_, ?_⟩
    · rw [Option.map_some', h5]
    · rw [Option.map_some', h6]
    · intro hmode
      obtain ⟨hA, hB, hC⟩ := h8 hmode
      constructor
      · rw [Option.map_some', hA]
      · rw [Option.map_some', hC]

theorem C4_halt_behaviour_witness :
    (Z2.halted = true ∧ Z2.activeNMI = false ∧ Z2.b.tstates + 4 < 24 ∧
      16386 ≤ Z2.regSP ∧ Z2.regSP < 65536 ∧ Z2.regPC < 65536) ∧
    ((Z2.ffIFF1 = false →
      Z80.executeStep spectrumBus (fun _ => none) Z2 =
        some {Z2 with b := {Z2.b with tstates := Z2.b.tstates + 4}, regR := Z2.regR + 1}) ∧
    (Z2.ffIFF1 = true → Z2.pendingEI = false →
      ((Z80.executeStep spectrumBus (fun _ => none) Z2).map (fun x => x.halted) = some false ∧
       (Z80.executeStep spectrumBus (fun _ => none) Z2).map (fun x => x.regPC) =
         some ((Z80.interruption spectrumBus
           {Z2 with b := {Z2.b with tstates := Z2.b.tstates + 4}, regR := Z2.regR + 1}).regPC) ∧
       (Z80.executeStep spectrumBus (fun _ => none) Z2).map (fun x => x.b.mem (Z2.regSP - 1)) =
         some (Z2.regPC / 256) ∧
       (Z80.executeStep spectrumBus (fun _ => none) Z2).map (fun x => x.b.mem (Z2.regSP - 2)) =
         some (Z2.regPC % 256) ∧
       ((Z2.modeINT = IM0 ∨ Z2.modeINT = IM1) →
         (Z80.executeStep spectrumBus (fun _ => none) Z2).map (fun x => x.regPC) = some 0x38 ∧
         (Z80.executeStep spectrumBus (fun _ => none) Z2).map (fun x => x.b.tstates) =
           some (Z2.b.tstates + 17))))) :=
  ⟨⟨rfl, rfl, by decide, by decide, by decide, by decide⟩,
    C4_halt_behaviour (fun _ => none) Z2 rfl rfl (by decide) (by decide) (by decide) (by decide)⟩

/-- Claim C4 (counterexample): the claim says the service routine
increments PC by one before pushing it. At the concrete halted state `Z2`
(PC = 0x8000) the accepted interrupt pushes low byte 0x00 = PC mod 256,
not 0x01 = (PC+1) mod 256: the code pushes PC unchanged. -/
theorem C4_halt_push_counterexample :
    (Z80.executeStep spectrumBus (fun _ => none) Z2).map (fun x => x.b.mem 36862) =
      some 0 ∧ (Z2.regPC + 1) % 256 = 1 ∧ (0 : Nat) ≠ 1 := by
  refine ⟨?_, by decide, by decide⟩
  rw [executeStep_halted_eq (fun _ => none) Z2 rfl (by decide)]
  rw [interruptTail_int spectrumBus
    {Z2 with b := {Z2.b with tstates := Z2.b.tstates + 4}, regR := Z2.regR + 1}
    rfl rfl rfl (by decide)]
  have hspec := interruption_spectrum
    {Z2 with b := {Z2.b with tstates := Z2.b.tstates + 4}, regR := Z2.regR + 1}
    (by decide) (by decide) (by decide) (by decide)
  obtain ⟨h1, h2, h3, h4, h5, h6, h7, h8, h9⟩ := hspec
  rw [Option.map_some']
  rw [show (36862 : Nat) =
    ({Z2 with b := {Z2.b with tstates := Z2.b.tstates + 4}, regR := Z2.regR + 1}).regSP - 2
    from rfl]
  rw [h6]
  decide

/-! ## Claim C5: register ranges -/

theorem or_lt_256 (a b : Nat) (ha : a < 256) (hb : b < 256) : a ||| b < 256 :=
  Nat.or_lt_two_pow (n := 8) ha hb

theorem and_lt_256 (a m : Nat) (hm : m < 256) : a &&& m < 256 :=
  lt_of_le_of_lt Nat.and_le_right hm

/-- A non-halted, non-prefixed iteration of the execute loop at a clock
below the contended region: fetch adds four T-states, PC advances, and the
fetched opcode is dispatched. -/
theorem executeStep_spectrum_small (eddict : Nat → Option (Z80State → Z80State))
    (s : Z80State) (hhalt : s.halted = false) (hpre : s.prefixOpcode = 0)
    (hsm : s.b.tstates + 4 < 14335) :
    Z80.executeStep spectrumBus eddict s =
      (match Z80.dispatch spectrumBus eddict (Memory.peekb s.b.mem s.regPC)
        {s with b := {s.b with tstates := s.b.tstates + 4}, regR := s.regR + 1,
                regPC := (s.regPC + 1) % 65536, flagQ := false, pendingEI := false} with
       | none => none
       | some s3 =>
         if s3.prefixOpcode ≠ 0 then some s3
         else some (Z80.interruptTail spectrumBus {s3 with lastFlagQ := s3.flagQ})) := by
  unfold Z80.executeStep
  dsimp only [spectrumBus]
  rw [ZX_fetch_opcode_small s.b s.regPC (by omega)]
  dsimp only
  rw [if_neg (by simp [hhalt]), if_pos hpre]

theorem cp_regPC (s : Z80State) (o : Nat) : (Z80.cp s o).regPC = s.regPC := rfl

theorem cp_regSP (s : Z80State) (o : Nat) : (Z80.cp s o).regSP = s.regSP := rfl

theorem cp_regIX (s : Z80State) (o : Nat) : (Z80.cp s o).regIX = s.regIX := rfl

theorem cp_regIY (s : Z80State) (o : Nat) : (Z80.cp s o).regIY = s.regIY := rfl

theorem cp_regA (s : Z80State) (o : Nat) : (Z80.cp s o).regA = s.regA := rfl

theorem cp_regB (s : Z80State) (o : Nat) : (Z80.cp s o).regB = s.regB := rfl

theorem cp_regC (s : Z80State) (o : Nat) : (Z80.cp s o).regC = s.regC := rfl

theorem cp_regD (s : Z80State) (o : Nat) : (Z80.cp s o).regD = s.regD := rfl

theorem cp_regE (s : Z80State) (o : Nat) : (Z80.cp s o).regE = s.regE := rfl

theorem cp_regH (s : Z80State) (o : Nat) : (Z80.cp s o).regH = s.regH := rfl

theorem cp_regL (s : Z80State) (o : Nat) : (Z80.cp s o).regL = s.regL := rfl

theorem inc_reg_HL_regA (s : Z80State) : (Z80.inc_reg_HL s).regA = s.regA := by
  unfold Z80.inc_reg_HL
  dsimp only
  split_ifs <;> rfl

theorem inc_reg_HL_regB (s : Z80State) : (Z80.inc_reg_HL s).regB = s.regB := by
  unfold Z80.inc_reg_HL
  dsimp only
  split_ifs <;> rfl

theorem inc_reg_HL_regC (s : Z80State) : (Z80.inc_reg_HL s).regC = s.regC := by
  unfold Z80.inc_reg_HL
  dsimp only
  split_ifs <;> rfl

theorem inc_reg_HL_regD (s : Z80State) : (Z80.inc_reg_HL s).regD = s.regD := by
  unfold Z80.inc_reg_HL
  dsimp only
  split_ifs <;> rfl

theorem inc_reg_HL_regE (s : Z80State) : (Z80.inc_reg_HL s).regE = s.regE := by
  unfold Z80.inc_reg_HL
  dsimp only
  split_ifs <;> rfl

theorem inc_reg_HL_regPC (s : Z80State) : (Z80.inc_reg_HL s).regPC = s.regPC := by
  unfold Z80.inc_reg_HL
  dsimp only
  split_ifs <;> rfl

theorem inc_reg_HL_regSP (s : Z80State) : (Z80.inc_reg_HL s).regSP = s.regSP := by
  unfold Z80.inc_reg_HL
  dsimp only
  split_ifs <;> rfl

theorem inc_reg_HL_regIX (s : Z80State) : (Z80.inc_reg_HL s).regIX = s.regIX := by
  unfold Z80.inc_reg_HL
  dsimp only
  split_ifs <;> rfl

theorem inc_reg_HL_regIY (s : Z80State) : (Z80.inc_reg_HL s).regIY = s.regIY := by
  unfold Z80.inc_reg_HL
  dsimp only
  split_ifs <;> rfl

theorem inc_reg_HL_flags (s : Z80State) :
    (Z80.inc_reg_HL s).sz5h3pnFlags = s.sz5h3pnFlags := by
  unfold Z80.inc_reg_HL
  dsimp only
  split_ifs <;> rfl

theorem inc_reg_HL_regH_lt (s : Z80State) (hH : s.regH < 256) :
    (Z80.inc_reg_HL s).regH < 256 := by
  unfold Z80.inc_reg_HL
  dsimp only
  split_ifs <;> (dsimp only; omega)

theorem inc_reg_HL_regL_lt (s : Z80State) : (Z80.inc_reg_HL s).regL < 256 := by
  unfold Z80.inc_reg_HL
  dsimp only
  split_ifs <;> (dsimp only; omega)

theorem dec_reg_BC_regA (s : Z80State) : (Z80.dec_reg_BC s).regA = s.regA := by
  unfold Z80.dec_reg_BC
  dsimp only
  split_ifs <;> rfl

theorem dec_reg_BC_regD (s : Z80State) : (Z80.dec_reg_BC s).regD = s.regD := by
  unfold Z80.dec_reg_BC
  dsimp only
  split_ifs <;> rfl

theorem dec_reg_BC_regE (s : Z80State) : (Z80.dec_reg_BC s).regE = s.regE := by
  unfold Z80.dec_reg_BC
  dsimp only
  split_ifs <;> rfl

theorem dec_reg_BC_regH (s : Z80State) : (Z80.dec_reg_BC s).regH = s.regH := by
  unfold Z80.dec_reg_BC
  dsimp only
  split_ifs <;> rfl

theorem dec_reg_BC_regL (s : Z80State) : (Z80.dec_reg_BC s).regL = s.regL := by
  unfold Z80.dec_reg_BC
  dsimp only
  split_ifs <;> rfl

theorem dec_reg_BC_regPC (s : Z80State) : (Z80.dec_reg_BC s).regPC = s.regPC := by
  unfold Z80.dec_reg_BC
  dsimp only
  split_ifs <;> rfl

theorem dec_reg_BC_regSP (s : Z80State) : (Z80.dec_reg_BC s).regSP = s.regSP := by
  unfold Z80.dec_reg_BC
  dsimp only
  split_ifs <;> rfl

theorem dec_reg_BC_regIX (s : Z80State) : (Z80.dec_reg_BC s).regIX = s.regIX := by
  unfold Z80.dec_reg_BC
  dsimp only
  split_ifs <;> rfl

theorem dec_reg_BC_regIY (s : Z80State) : (Z80.dec_reg_BC s).regIY = s.regIY := by
  unfold Z80.dec_reg_BC
  dsimp only
  split_ifs <;> rfl

theorem dec_reg_BC_regB_lt (s : Z80State) (hB : s.regB < 256) :
    (Z80.dec_reg_BC s).regB < 256 := by
  unfold Z80.dec_reg_BC
  dsimp only
  split_ifs <;> (dsimp only; omega)

theorem dec_reg_BC_regC_lt (s : Z80State) (hC : s.regC < 256) :
    (Z80.dec_reg_BC s).regC < 256 := by
  unfold Z80.dec_reg_BC
  dsimp only
  split_ifs <;> (dsimp only; omega)

theorem addhlbc_ranges (s : Z80State)
    (hPC : s.regPC < 65536) (hSP : s.regSP < 65536)
    (hIX : s.regIX < 65536) (hIY : s.regIY < 65536)
    (hA : s.regA < 256) (hB : s.regB < 256) (hC : s.regC < 256) (hD : s.regD < 256)
    (hE : s.regE < 256) (hF : s.sz5h3pnFlags < 256) :
    RegRanges (Z80.addhlbc spectrumBus s) := by
  unfold Z80.addhlbc Z80.add16 Z80.set_reg_HL
  dsimp only [spectrumBus]
  refine ⟨hPC, hSP, hIX, hIY, hA, hB, hC, hD, hE, ?_, ?_, ?_⟩
  · exact and_lt_256 _ _ (by decide)
  · exact and_lt_256 _ _ (by decide)
  · split
    · refine or_lt_256 _ _ (or_lt_256 _ _ (and_lt_256 _ _ (by decide))
        (and_lt_256 _ _ (by decide))) (by decide)
    · exact or_lt_256 _ _ (and_lt_256 _ _ (by decide)) (and_lt_256 _ _ (by decide))

theorem jrnz_ranges (s : Z80State)
    (hSP : s.regSP < 65536) (hIX : s.regIX < 65536) (hIY : s.regIY < 65536)
    (hA : s.regA < 256) (hB : s.regB < 256) (hC : s.regC < 256) (hD : s.regD < 256)
    (hE : s.regE < 256) (hH : s.regH < 256) (hL : s.regL < 256)
    (hF : s.sz5h3pnFlags < 256) :
    RegRanges (Z80.jrnz spectrumBus s) := by
  unfold Z80.jrnz
  dsimp only [spectrumBus]
  split
  · refine ⟨?_, hSP, hIX, hIY, hA, hB, hC, hD, hE, hH, hL, hF⟩
    dsimp only
    unfold mask16i
    omega
  · exact ⟨Nat.mod_lt _ (by omega), hSP, hIX, hIY, hA, hB, hC, hD, hE, hH, hL, hF⟩

theorem cpiFlagFix_regPC (m : Nat) (s : Z80State) :
    (Z80.cpiFlagFix m s).regPC = s.regPC := rfl

theorem cpiFlagFix_regSP (m : Nat) (s : Z80State) :
    (Z80.cpiFlagFix m s).regSP = s.regSP := rfl

theorem cpiFlagFix_regIX (m : Nat) (s : Z80State) :
    (Z80.cpiFlagFix m s).regIX = s.regIX := rfl

theorem cpiFlagFix_regIY (m : Nat) (s : Z80State) :
    (Z80.cpiFlagFix m s).regIY = s.regIY := rfl

theorem cpiFlagFix_regA (m : Nat) (s : Z80State) :
    (Z80.cpiFlagFix m s).regA = s.regA := rfl

theorem cpiFlagFix_regB (m : Nat) (s : Z80State) :
    (Z80.cpiFlagFix m s).regB = s.regB := rfl

theorem cpiFlagFix_regC (m : Nat) (s : Z80State) :
    (Z80.cpiFlagFix m s).regC = s.regC := rfl

theorem cpiFlagFix_regD (m : Nat) (s : Z80State) :
    (Z80.cpiFlagFix m s).regD = s.regD := rfl

theorem cpiFlagFix_regE (m : Nat) (s : Z80State) :
    (Z80.cpiFlagFix m s).regE = s.regE := rfl

theorem cpiFlagFix_regH (m : Nat) (s : Z80State) :
    (Z80.cpiFlagFix m s).regH = s.regH := rfl

theorem cpiFlagFix_regL (m : Nat) (s : Z80State) :
    (Z80.cpiFlagFix m s).regL = s.regL := rfl

theorem cpiFlagFix_flags_lt (m : Nat) (s : Z80State) :
    (Z80.cpiFlagFix m s).sz5h3pnFlags < 256 := by
  unfold Z80.cpiFlagFix
  dsimp only
  split_ifs <;>
    first
      | exact or_lt_256 _ _ (or_lt_256 _ _ (or_lt_256 _ _ (and_lt_256 _ _ (by decide))
          (and_lt_256 _ _ (by decide))) (by decide)) (by decide)
      | exact or_lt_256 _ _ (or_lt_256 _ _ (and_lt_256 _ _ (by decide))
          (and_lt_256 _ _ (by decide))) (by decide)
      | exact or_lt_256 _ _ (and_lt_256 _ _ (by decide)) (and_lt_256 _ _ (by decide))

theorem cpi_ranges (s : Z80State)
    (hPC : s.regPC < 65536) (hSP : s.regSP < 65536)
    (hIX : s.regIX < 65536) (hIY : s.regIY < 65536)
    (hA : s.regA < 256) (hB : s.regB < 256) (hC : s.regC < 256) (hD : s.regD < 256)
    (hE : s.regE < 256) (hH : s.regH < 256) (hL : s.regL < 256) :
    RegRanges (Z80.cpi spectrumBus s) := by
  unfold Z80.cpi Z80.cpiAfterRead
  dsimp only
  refine ⟨?_, ?_, ?_, ?_, ?_, ?_, ?_, ?_, ?_, ?_, ?_, ?_⟩
  · rw [cpiFlagFix_regPC, dec_reg_BC_regPC, inc_reg_HL_regPC, cp_regPC]
    exact hPC
  · rw [cpiFlagFix_regSP, dec_reg_BC_regSP, inc_reg_HL_regSP, cp_regSP]
    exact hSP
  · rw [cpiFlagFix_regIX, dec_reg_BC_regIX, inc_reg_HL_regIX, cp_regIX]
    exact hIX
  · rw [cpiFlagFix_regIY, dec_reg_BC_regIY, inc_reg_HL_regIY, cp_regIY]
    exact hIY
  · rw [cpiFlagFix_regA, dec_reg_BC_regA, inc_reg_HL_regA, cp_regA]
    exact hA
  · rw [cpiFlagFix_regB]
    refine dec_reg_BC_regB_lt _ ?_
    rw [inc_reg_HL_regB, cp_regB]
    exact hB
  · rw [cpiFlagFix_regC]
    refine dec_reg_BC_regC_lt _ ?_
    rw [inc_reg_HL_regC, cp_regC]
    exact hC
  · rw [cpiFlagFix_regD, dec_reg_BC_regD, inc_reg_HL_regD, cp_regD]
    exact hD
  · rw [cpiFlagFix_regE, dec_reg_BC_regE, inc_reg_HL_regE, cp_regE]
    exact hE
  · rw [cpiFlagFix_regH, dec_reg_BC_regH]
    refine inc_reg_HL_regH_lt _ ?_
    rw [cp_regH]
    exact hH
  · rw [cpiFlagFix_regL, dec_reg_BC_regL]
    exact inc_reg_HL_regL_lt _
  · exact cpiFlagFix_flags_lt _ _

theorem dispatch_00 (bus : BusOps) (eddict : Nat → Option (Z80State → Z80State))
    (s : Z80State) : Z80.dispatch bus eddict 0x00 s = some s := rfl

theorem dispatch_09 (bus : BusOps) (eddict : Nat → Option (Z80State → Z80State))
    (s : Z80State) : Z80.dispatch bus eddict 0x09 s = some (Z80.addhlbc bus s) := rfl

theorem dispatch_20 (bus : BusOps) (eddict : Nat → Option (Z80State → Z80State))
    (s : Z80State) : Z80.dispatch bus eddict 0x20 s = some (Z80.jrnz bus s) := rfl

theorem dispatch_3a (bus : BusOps) (eddict : Nat → Option (Z80State → Z80State))
    (s : Z80State) : Z80.dispatch bus eddict 0x3a s = some (Z80.ldafromnn bus s) := rfl

theorem dispatch_76 (bus : BusOps) (eddict : Nat → Option (Z80State → Z80State))
    (s : Z80State) : Z80.dispatch bus eddict 0x76 s = some (Z80.halt s) := rfl

theorem dispatch_ed (bus : BusOps) (eddict : Nat → Option (Z80State → Z80State))
    (s : Z80State) : Z80.dispatch bus eddict 0xed s = some (Z80.ed bus eddict s) := rfl

theorem addhlbc_prefixOpcode (bus : BusOps) (s : Z80State) :
    (Z80.addhlbc bus s).prefixOpcode = s.prefixOpcode := rfl

theorem addhlbc_activeNMI (bus : BusOps) (s : Z80State) :
    (Z80.addhlbc bus s).activeNMI = s.activeNMI := rfl

theorem addhlbc_ffIFF1 (bus : BusOps) (s : Z80State) :
    (Z80.addhlbc bus s).ffIFF1 = s.ffIFF1 := rfl

theorem addhlbc_memptr (bus : BusOps) (s : Z80State) :
    (Z80.addhlbc bus s).memptr = ((Z80.get_reg_HL s : Nat) : Int) + 1 := rfl

/-- Claim C5 (amended): after each of the cited instructions — ADD HL,BC
(via `add16`), JR NZ, and CPI — executed on an in-range state, PC, SP, IX
and IY lie in [0, 65535] and the 8-bit registers A, B, C, D, E, H, L and
the flag byte lie in [0, 255]. MEMPTR is excluded: the code stores it
unmasked and it can leave [0, 65535] (see the counterexample, where ADD
HL,BC with HL = 0xFFFF leaves MEMPTR = 65536). -/
theorem C5_register_ranges (s : Z80State)
    (hPC : s.regPC < 65536) (hSP : s.regSP < 65536)
    (hIX : s.regIX < 65536) (hIY : s.regIY < 65536)
    (hA : s.regA < 256) (hB : s.regB < 256) (hC : s.regC < 256) (hD : s.regD < 256)
    (hE : s.regE < 256) (hH : s.regH < 256) (hL : s.regL < 256)
    (hF : s.sz5h3pnFlags < 256) :
    RegRanges (Z80.addhlbc spectrumBus s) ∧ RegRanges (Z80.jrnz spectrumBus s) ∧
      RegRanges (Z80.cpi spectrumBus s) :=
  ⟨addhlbc_ranges s hPC hSP hIX hIY hA hB hC hD hE hF,
   jrnz_ranges s hSP hIX hIY hA hB hC hD hE hH hL hF,
   cpi_ranges s hPC hSP hIX hIY hA hB hC hD hE hH hL⟩

theorem C5_register_ranges_witness :
    (Z0.regPC < 65536 ∧ Z0.regSP < 65536 ∧ Z0.regIX < 65536 ∧ Z0.regIY < 65536 ∧
      Z0.regA < 256 ∧ Z0.regB < 256 ∧ Z0.regC < 256 ∧ Z0.regD < 256 ∧
      Z0.regE < 256 ∧ Z0.regH < 256 ∧ Z0.regL < 256 ∧ Z0.sz5h3pnFlags < 256) ∧
    (RegRanges (Z80.addhlbc spectrumBus Z0) ∧ RegRanges (Z80.jrnz spectrumBus Z0) ∧
      RegRanges (Z80.cpi spectrumBus Z0)) :=
  ⟨⟨by decide, by decide, by decide, by decide, by decide, by decide, by decide,
    by decide, by decide, by decide, by decide, by decide⟩,
   C5_register_ranges Z0 (by decide) (by decide) (by decide) (by decide) (by decide)
     (by decide) (by decide) (by decide) (by decide) (by decide) (by decide) (by decide)⟩

/-- Claim C5 (counterexample): executing ADD HL,BC from HL = 0xFFFF via
one iteration of `Z80.execute` leaves MEMPTR = 65536, outside
[0, 65535] — `add16` stores `reg16 + 1` into MEMPTR without masking. -/
theorem C5_memptr_counterexample :
    (Z80.executeStep spectrumBus (fun _ => none) ZC5).map (fun x => x.memptr) =
      some (65536 : Int) ∧ ¬((65536 : Int) ≤ 65535) := by
  refine ⟨?_, by decide⟩
  rw [executeStep_spectrum_small (fun _ => none) ZC5 rfl rfl (by decide)]
  rw [show Memory.peekb ZC5.b.mem ZC5.regPC = 0x09 from rfl]
  rw [dispatch_09]
  dsimp only
  show (if (Z80.addhlbc spectrumBus ZC5b).prefixOpcode ≠ 0
      then some (Z80.addhlbc spectrumBus ZC5b)
      else some (Z80.interruptTail spectrumBus
        {Z80.addhlbc spectrumBus ZC5b with
          lastFlagQ := (Z80.addhlbc spectrumBus ZC5b).flagQ})).map (fun x => x.memptr) =
    some (65536 : Int)
  rw [if_neg (show ¬((Z80.addhlbc spectrumBus ZC5b).prefixOpcode ≠ 0) by
    rw [addhlbc_prefixOpcode]
    decide)]
  rw [interruptTail_noint spectrumBus
    {Z80.addhlbc spectrumBus ZC5b with lastFlagQ := (Z80.addhlbc spectrumBus ZC5b).flagQ}
    (by rw [show ({Z80.addhlbc spectrumBus ZC5b with
        lastFlagQ := (Z80.addhlbc spectrumBus ZC5b).flagQ} : Z80State).activeNMI =
        (Z80.addhlbc spectrumBus ZC5b).activeNMI from rfl, addhlbc_activeNMI]; rfl)
    (by rw [show ({Z80.addhlbc spectrumBus ZC5b with
        lastFlagQ := (Z80.addhlbc spectrumBus ZC5b).flagQ} : Z80State).ffIFF1 =
        (Z80.addhlbc spectrumBus ZC5b).ffIFF1 from rfl, addhlbc_ffIFF1]; rfl)]
  rw [Option.map_some']
  rw [show ({Z80.addhlbc spectrumBus ZC5b with
      lastFlagQ := (Z80.addhlbc spectrumBus ZC5b).flagQ} : Z80State).memptr =
      (Z80.addhlbc spectrumBus ZC5b).memptr from rfl]
  rw [addhlbc_memptr]
  decide

/-! ## Claim C8: unknown opcodes under the 0xED prefix -/

/-- On the plain bus `is_active_INT` is constantly false, so the
interrupt tail only ever services a pending NMI. -/
theorem interruptTail_plain (s : Z80State) :
    Z80.interruptTail plainBus s =
      if s.activeNMI then Z80.nmi plainBus {s with activeNMI := false} else s := by
  unfold Z80.interruptTail
  by_cases h : s.activeNMI = true
  · rw [if_pos h, if_pos h]
  · rw [if_neg h, if_neg h, if_neg]
    intro hc
    exact absurd hc.2.2 (by simp [plainBus, ClockAndBusAccess.is_active_INT])

/-- Claim C8: executing 0xED followed by a second byte that is not a key
of the `_eddict` dispatch table (for any dispatch map whose domain is the
`_eddict` key set) advances the T-state counter by exactly 8 on the plain
bus, advances PC past the two bytes, increments R twice, and changes no
other CPU register and no memory (only the internal `flagQ`, `lastFlagQ`
and `pendingEI` bookkeeping). -/
theorem C8_ed_unknown (eddict : Nat → Option (Z80State → Z80State))
    (hed : ∀ k f, eddict k = some f → k ∈ edDictKeys)
    (s : Z80State) (hhalt : s.halted = false) (hpre : s.prefixOpcode = 0)
    (hnmi : s.activeNMI = false) (hPC : s.regPC < 65536)
    (hED : Memory.peekb s.b.mem s.regPC = 0xED)
    (hb : Memory.peekb s.b.mem ((s.regPC + 1) % 65536) ∉ edDictKeys) :
    Z80.executeStep plainBus eddict s =
      some {s with
        b := {s.b with tstates := s.b.tstates + 8},
        regR := s.regR + 2,
        regPC := (s.regPC + 2) % 65536,
        flagQ := false,
        pendingEI := false,
        lastFlagQ := false} := by
  have hnone : eddict (Memory.peekb s.b.mem ((s.regPC + 1) % 65536)) = none := by
    cases h : eddict (Memory.peekb s.b.mem ((s.regPC + 1) % 65536)) with
    | none => rfl
    | some f => exact absurd (hed _ _ h) hb
  unfold Z80.executeStep
  rw [show plainBus.fetch_opcode = ClockAndBusAccess.fetch_opcode from rfl]
  dsimp only [ClockAndBusAccess.fetch_opcode]
  rw [hED]
  rw [if_neg (by simp [hhalt]), if_pos hpre]
  rw [dispatch_ed]
  unfold Z80.ed
  rw [show plainBus.fetch_opcode = ClockAndBusAccess.fetch_opcode from rfl]
  dsimp only [ClockAndBusAccess.fetch_opcode]
  rw [hnone]
  dsimp only
  rw [if_neg (show ¬(s.prefixOpcode ≠ 0) by simp [hpre])]
  rw [interruptTail_plain]
  rw [if_neg (by simp [hnmi])]
  have hpc2 : ((s.regPC + 1) % 65536 + 1) % 65536 = (s.regPC + 2) % 65536 := by omega
  rw [hpc2]

theorem C8_ed_unknown_witness :
    ((∀ k f, (fun _ => none : Nat → Option (Z80State → Z80State)) k = some f →
        k ∈ edDictKeys) ∧
      ZC8.halted = false ∧ ZC8.prefixOpcode = 0 ∧ ZC8.activeNMI = false ∧
      ZC8.regPC < 65536 ∧ Memory.peekb ZC8.b.mem ZC8.regPC = 0xED ∧
      Memory.peekb ZC8.b.mem ((ZC8.regPC + 1) % 65536) ∉ edDictKeys) ∧
    Z80.executeStep plainBus (fun _ => none) ZC8 =
      some {ZC8 with
        b := {ZC8.b with tstates := ZC8.b.tstates + 8},
        regR := ZC8.regR + 2,
        regPC := (ZC8.regPC + 2) % 65536,
        flagQ := false,
        pendingEI := false,
        lastFlagQ := false} :=
  ⟨⟨fun _ _ h => Option.noConfusion h, rfl, rfl, rfl, by decide, by decide, by decide⟩,
    C8_ed_unknown (fun _ => none) (fun _ _ h => Option.noConfusion h) ZC8
      rfl rfl rfl (by decide) (by decide) (by decide)⟩

/-! ## Claim C7: contended timing of LD A,(nn) -/

theorem executeStep_spectrum_eq (eddict : Nat → Option (Z80State → Z80State))
    (s : Z80State) (hhalt : s.halted = false) (hpre : s.prefixOpcode = 0) :
    Z80.executeStep spectrumBus eddict s =
      (match Z80.dispatch spectrumBus eddict (Memory.peekb s.b.mem s.regPC)
        {s with b := contendAdd s.b s.regPC 4, regR := s.regR + 1,
                regPC := (s.regPC + 1) % 65536, flagQ := false, pendingEI := false} with
       | none => none
       | some s3 =>
         if s3.prefixOpcode ≠ 0 then some s3
         else some (Z80.interruptTail spectrumBus {s3 with lastFlagQ := s3.flagQ})) := by
  unfold Z80.executeStep
  rw [show spectrumBus.fetch_opcode = ZXSpectrum48.fetch_opcode from rfl]
  unfold ZXSpectrum48.fetch_opcode
  dsimp only
  rw [contendAdd_mem]
  rw [if_neg (by simp [hhalt]), if_pos hpre]

theorem ldafromnn_b (bus : BusOps) (s : Z80State) :
    (Z80.ldafromnn bus s).b =
      (bus.peekb (bus.peekw s.b s.regPC).2 (bus.peekw s.b s.regPC).1).2 := rfl

theorem ldafromnn_prefixOpcode (bus : BusOps) (s : Z80State) :
    (Z80.ldafromnn bus s).prefixOpcode = s.prefixOpcode := rfl

theorem ldafromnn_activeNMI (bus : BusOps) (s : Z80State) :
    (Z80.ldafromnn bus s).activeNMI = s.activeNMI := rfl

theorem ldafromnn_ffIFF1 (bus : BusOps) (s : Z80State) :
    (Z80.ldafromnn bus s).ffIFF1 = s.ffIFF1 := rfl

theorem ldafromnn_regA (bus : BusOps) (s : Z80State) :
    (Z80.ldafromnn bus s).regA =
      (bus.peekb (bus.peekw s.b s.regPC).2 (bus.peekw s.b s.regPC).1).1 := rfl

theorem ldafromnn_timing_main (eddict : Nat → Option (Z80State → Z80State)) (s : Z80State)
    (hts : s.b.tstates = 14335) (hhalt : s.halted = false) (hpre : s.prefixOpcode = 0)
    (hnmi : s.activeNMI = false) (hIFF : s.ffIFF1 = false)
    (hPC1 : 16384 ≤ s.regPC) (hPC2 : s.regPC + 2 < 32768)
    (hm0 : Memory.peekb s.b.mem s.regPC = 0x3a)
    (hm1 : Memory.peekb s.b.mem (s.regPC + 1) = 0x00)
    (hm2 : Memory.peekb s.b.mem (s.regPC + 2) = 0x40) :
    delay_tstates 14335 = 6 ∧ delay_tstates 14345 = 4 ∧
    delay_tstates 14352 = 5 ∧ delay_tstates 14360 = 5 ∧
    (Z80.executeStep spectrumBus eddict s).map (fun x => x.b.tstates) =
      some (s.b.tstates + 33) := by
  have hd0 : delay_tstates 14335 = 6 := by
    rw [delay_tstates_contended 14335 (by norm_num) (by norm_num) (by norm_num)]
  have hd1 : delay_tstates 14345 = 4 := by
    rw [delay_tstates_contended 14345 (by norm_num) (by norm_num) (by norm_num)]
  have hd2 : delay_tstates 14352 = 5 := by
    rw [delay_tstates_contended 14352 (by norm_num) (by norm_num) (by norm_num)]
  have hd3 : delay_tstates 14360 = 5 := by
    rw [delay_tstates_contended 14360 (by norm_num) (by norm_num) (by norm_num)]
  have hA1 : (s.regPC + 1) % 65536 = s.regPC + 1 := by omega
  have hA2 : (s.regPC + 1 + 1) % 65536 = s.regPC + 2 := by omega
  refine ⟨hd0, hd1, hd2, hd3, ?_⟩
  have e0 : (contendAdd s.b s.regPC 4).tstates = 14345 := by
    rw [contendAdd_tstates, if_pos (by omega : 16384 ≤ s.regPC ∧ s.regPC < 32768), hts, hd0]
  have e0m : (contendAdd s.b s.regPC 4).mem = s.b.mem := contendAdd_mem s.b s.regPC 4
  have eWt : (ZXSpectrum48.peekw (contendAdd s.b s.regPC 4)
      ((s.regPC + 1) % 65536)).2.tstates = 14360 := by
    rw [ZX_peekw_tstates, hA1, hA2, e0]
    rw [if_pos (by omega : 16384 ≤ s.regPC + 1 ∧ s.regPC + 1 < 32768)]
    rw [if_pos (by omega : 16384 ≤ s.regPC + 2 ∧ s.regPC + 2 < 32768)]
    rw [hd1]
    rw [show (14345 + 4 + 3 : Nat) = 14352 by norm_num, hd2]
  have eWm : (ZXSpectrum48.peekw (contendAdd s.b s.regPC 4)
      ((s.regPC + 1) % 65536)).2.mem = s.b.mem := by
    rw [ZX_peekw_mem, e0m]
  have eWv : (ZXSpectrum48.peekw (contendAdd s.b s.regPC 4)
      ((s.regPC + 1) % 65536)).1 = 16384 := by
    rw [ZX_peekw_val, hA1, hA2, e0m, hm1, hm2]
    decide
  rw [executeStep_spectrum_eq eddict s hhalt hpre]
  rw [hm0, dispatch_3a]
  dsimp only
  rw [if_neg (by simp [ldafromnn_prefixOpcode, hpre])]
  unfold Z80.interruptTail
  rw [if_neg (by simp [ldafromnn_activeNMI, hnmi])]
  rw [if_neg (by simp [ldafromnn_ffIFF1, hIFF])]
  rw [Option.map_some']
  dsimp only
  rw [ldafromnn_b]
  rw [show spectrumBus.peekb = ZXSpectrum48.peekb from rfl,
      show spectrumBus.peekw = ZXSpectrum48.peekw from rfl]
  dsimp only
  rw [ZX_peekb_tstates, eWv, eWt]
  rw [if_pos (by norm_num : (16384 : Nat) ≤ 16384 ∧ (16384 : Nat) < 32768), hd3, hts]

/-- Claim C7 (amended): with the clock at T-state 14335 and the instruction
LD A,(0x4000) (bytes 3A 00 40) fetched from contended memory, `execute`
performs four bus operations — the opcode fetch (base 4) and three reads
(base 3 each) — whose contention delays, looked up in `delay_tstates` at
the successive clock values 14335, 14345, 14352 and 14360, are 6, 4, 5
and 5, so the iteration advances the T-state counter by exactly
4+3+3+3+6+4+5+5 = 33 (not by 25 with delays 6, 5, 4 as the claim states). -/
theorem C7_ld_a_nn_timing (eddict : Nat → Option (Z80State → Z80State)) (s : Z80State)
    (hts : s.b.tstates = 14335) (hhalt : s.halted = false) (hpre : s.prefixOpcode = 0)
    (hnmi : s.activeNMI = false) (hIFF : s.ffIFF1 = false)
    (hPC1 : 16384 ≤ s.regPC) (hPC2 : s.regPC + 2 < 32768)
    (hm0 : Memory.peekb s.b.mem s.regPC = 0x3a)
    (hm1 : Memory.peekb s.b.mem (s.regPC + 1) = 0x00)
    (hm2 : Memory.peekb s.b.mem (s.regPC + 2) = 0x40) :
    delay_tstates 14335 = 6 ∧ delay_tstates 14345 = 4 ∧
    delay_tstates 14352 = 5 ∧ delay_tstates 14360 = 5 ∧
    (Z80.executeStep spectrumBus eddict s).map (fun x => x.b.tstates) =
      some (s.b.tstates + 33) :=
  ldafromnn_timing_main eddict s hts hhalt hpre hnmi hIFF hPC1 hPC2 hm0 hm1 hm2

/-- Witness for C7 at the concrete state `ZC7`. -/
theorem C7_ld_a_nn_timing_witness :
    ZC7.b.tstates = 14335 ∧ Memory.peekb ZC7.b.mem ZC7.regPC = 0x3a ∧
    (delay_tstates 14335 = 6 ∧ delay_tstates 14345 = 4 ∧
     delay_tstates 14352 = 5 ∧ delay_tstates 14360 = 5 ∧
     (Z80.executeStep spectrumBus (fun _ => none) ZC7).map (fun x => x.b.tstates) =
       some (ZC7.b.tstates + 33)) :=
  ⟨rfl, by decide,
   C7_ld_a_nn_timing (fun _ => none) ZC7 rfl rfl rfl rfl rfl (by decide) (by decide)
     (by decide) (by decide) (by decide)⟩

/-- Counterexample to C7 as stated: the concrete run advances the clock by
33 T-states, not 25. -/
theorem C7_ld_a_nn_timing_counterexample :
    (Z80.executeStep spectrumBus (fun _ => none) ZC7).map (fun x => x.b.tstates) =
      some (14335 + 33) ∧ ¬((14335 + 33 : Nat) = 14335 + 25) := by
  refine ⟨?_, by decide⟩
  have h := ldafromnn_timing_main (fun _ => none) ZC7 rfl rfl rfl rfl rfl (by decide)
    (by decide) (by decide) (by decide) (by decide)
  exact h.2.2.2.2

/-! ## Claim C10: each execute-loop iteration advances the clock by at
least 4 T-states, so `execute(states_limit)` terminates -/

theorem contendAdd_ge (s : BusState) (a base : Nat) :
    s.tstates + base ≤ (contendAdd s a base).tstates := by
  rw [contendAdd_tstates]
  split <;> omega

theorem ZX_fetch_opcode_ge (s : BusState) (a : Nat) :
    s.tstates + 4 ≤ (ZXSpectrum48.fetch_opcode s a).2.tstates :=
  contendAdd_ge s a 4

theorem le_ZX_peekb (s : BusState) (a : Nat) :
    s.tstates ≤ (ZXSpectrum48.peekb s a).2.tstates := by
  have := contendAdd_ge s a 3
  exact le_trans (by omega) this

theorem le_ZX_peeksb (s : BusState) (a : Nat) :
    s.tstates ≤ (ZXSpectrum48.peeksb s a).2.tstates := by
  have := contendAdd_ge s a 3
  exact le_trans (by omega) this

theorem le_ZX_pokeb (s : BusState) (a v : Nat) :
    s.tstates ≤ (ZXSpectrum48.pokeb s a v).tstates := by
  rw [ZX_pokeb_tstates]
  split <;> omega

theorem le_ZX_peekw (s : BusState) (a : Nat) :
    s.tstates ≤ (ZXSpectrum48.peekw s a).2.tstates := by
  rw [ZX_peekw_tstates]
  split <;> split <;> omega

theorem le_ZX_pokew (s : BusState) (a v : Nat) :
    s.tstates ≤ (ZXSpectrum48.pokew s a v).tstates := by
  rw [ZX_pokew_tstates]
  split <;> split <;> omega

theorem foldl_contention_ge (l : List Nat) (s : BusState) :
    s.tstates + l.length ≤
      (l.foldl (fun st _ =>
        {st with tstates := st.tstates + delay_tstates st.tstates + 1}) s).tstates := by
  induction l generalizing s with
  | nil => simp
  | cons a l ih =>
    dsimp only [List.foldl, List.length]
    have h := ih {s with tstates := s.tstates + delay_tstates s.tstates + 1}
    dsimp only at h
    omega

theorem ZX_address_on_bus_ge (s : BusState) (a t : Nat) :
    s.tstates + t ≤ (ZXSpectrum48.address_on_bus s a t).tstates := by
  unfold ZXSpectrum48.address_on_bus
  dsimp only
  rw [screenCatchUp_tstates]
  split
  · have h := foldl_contention_ge (List.range t) s
    rw [List.length_range] at h
    exact h
  · dsimp only
    omega

theorem le_ZX_aob (s : BusState) (a t : Nat) :
    s.tstates ≤ (ZXSpectrum48.address_on_bus s a t).tstates := by
  have := ZX_address_on_bus_ge s a t
  omega

theorem ZX_iht_tstates (s : BusState) (t : Nat) :
    (ZXSpectrum48.interrupt_handling_time s t).tstates = s.tstates + t := by
  unfold ZXSpectrum48.interrupt_handling_time
  rw [screenCatchUp_tstates]

theorem le_ZX_iht (s : BusState) (t : Nat) :
    s.tstates ≤ (ZXSpectrum48.interrupt_handling_time s t).tstates := by
  rw [ZX_iht_tstates]
  omega

theorem push_mono (s : Z80State) (w : Nat) :
    s.b.tstates ≤ (Z80.push spectrumBus s w).b.tstates := by
  unfold Z80.push
  dsimp only
  rw [show spectrumBus.pokeb = ZXSpectrum48.pokeb from rfl]
  exact le_trans (le_ZX_pokeb _ _ _) (le_ZX_pokeb _ _ _)

set_option maxRecDepth 4000 in
theorem interruption_mono (s : Z80State) :
    s.b.tstates <= (Z80.interruption spectrumBus s).b.tstates := by
  by_cases hm : s.modeINT = IM2
  · unfold Z80.interruption Z80.push
    dsimp only [spectrumBus]
    rw [if_pos hm]
    dsimp only
    refine le_trans ?_ (le_ZX_peekw _ _)
    refine le_trans ?_ (le_ZX_pokeb _ _ _)
    refine le_trans ?_ (le_ZX_pokeb _ _ _)
    exact le_ZX_iht s.b 7
  · unfold Z80.interruption Z80.push
    dsimp only [spectrumBus]
    rw [if_neg hm]
    dsimp only
    refine le_trans ?_ (le_ZX_pokeb _ _ _)
    refine le_trans ?_ (le_ZX_pokeb _ _ _)
    exact le_ZX_iht s.b 7

set_option maxRecDepth 4000 in
theorem nmi_mono (s : Z80State) :
    s.b.tstates <= (Z80.nmi spectrumBus s).b.tstates := by
  unfold Z80.nmi Z80.push
  dsimp only [spectrumBus]
  refine le_trans ?_ (le_ZX_pokeb _ _ _)
  refine le_trans ?_ (le_ZX_pokeb _ _ _)
  refine le_trans ?_ (le_ZX_iht _ _)
  exact le_trans (Nat.le_add_right _ 4) (ZX_fetch_opcode_ge s.b s.regPC)

theorem interruptTail_mono (s : Z80State) :
    s.b.tstates <= (Z80.interruptTail spectrumBus s).b.tstates := by
  unfold Z80.interruptTail
  split
  · exact nmi_mono _
  · split
    · exact interruption_mono s
    · exact le_refl _

set_option maxRecDepth 4000 in
theorem addhlbc_mono (s : Z80State) :
    s.b.tstates <= (Z80.addhlbc spectrumBus s).b.tstates := by
  unfold Z80.addhlbc Z80.add16 Z80.set_reg_HL
  dsimp only [spectrumBus]
  exact le_ZX_aob _ _ _

set_option maxRecDepth 4000 in
set_option maxHeartbeats 1600000 in
theorem jrnz_mono (s : Z80State) :
    s.b.tstates <= (Z80.jrnz spectrumBus s).b.tstates := by
  unfold Z80.jrnz
  dsimp only [spectrumBus]
  split
  · refine le_trans ?_ (le_ZX_aob _ _ _)
    exact le_ZX_peeksb _ _
  · exact le_ZX_peeksb _ _

set_option maxRecDepth 4000 in
theorem ldafromnn_mono (s : Z80State) :
    s.b.tstates <= (Z80.ldafromnn spectrumBus s).b.tstates := by
  unfold Z80.ldafromnn
  dsimp only [spectrumBus]
  refine le_trans ?_ (le_ZX_peekb _ _)
  exact le_ZX_peekw _ _

set_option maxRecDepth 4000 in
theorem ed_mono (eddict : Nat -> Option (Z80State -> Z80State))
    (hmono : forall k f, eddict k = some f -> forall t, t.b.tstates <= (f t).b.tstates)
    (s : Z80State) :
    s.b.tstates <= (Z80.ed spectrumBus eddict s).b.tstates := by
  unfold Z80.ed
  dsimp only [spectrumBus]
  have hge := ZX_fetch_opcode_ge s.b s.regPC
  generalize hr : ZXSpectrum48.fetch_opcode s.b s.regPC = r
  rw [hr] at hge
  cases heq : eddict r.1 with
  | none =>
    exact le_trans (Nat.le_add_right _ 4) hge
  | some code =>
    dsimp only
    exact le_trans (le_trans (Nat.le_add_right _ 4) hge)
      (hmono _ _ heq {s with b := r.2, regPC := (s.regPC + 1) % 65536, regR := s.regR + 1})

theorem mono_of_some (s x sx : Z80State) (hle : s.b.tstates <= x.b.tstates)
    (h : some x = some sx) : s.b.tstates <= sx.b.tstates :=
  le_of_le_of_eq hle (congrArg (fun z : Z80State => z.b.tstates) (Option.some.inj h))

set_option maxRecDepth 8000 in
theorem dispatch_mono (eddict : Nat -> Option (Z80State -> Z80State))
    (hmono : forall k f, eddict k = some f -> forall t, t.b.tstates <= (f t).b.tstates)
    (opcode : Nat) (s sx : Z80State)
    (h : Z80.dispatch spectrumBus eddict opcode s = some sx) :
    s.b.tstates <= sx.b.tstates := by
  unfold Z80.dispatch at h
  split at h
  · exact mono_of_some _ _ _ (le_refl _) h
  · exact mono_of_some _ _ _ (addhlbc_mono s) h
  · exact mono_of_some _ _ _ (jrnz_mono s) h
  · exact mono_of_some _ _ _ (ldafromnn_mono s) h
  · exact mono_of_some s (Z80.halt s) sx (le_refl _) h
  · exact mono_of_some _ _ _ (ed_mono eddict hmono s) h
  · exact Option.noConfusion h

set_option maxRecDepth 8000 in
theorem executeStep_mono (eddict : Nat -> Option (Z80State -> Z80State))
    (hmono : forall k f, eddict k = some f -> forall t, t.b.tstates <= (f t).b.tstates)
    (s sx : Z80State) (h : Z80.executeStep spectrumBus eddict s = some sx) :
    s.b.tstates + 4 <= sx.b.tstates := by
  unfold Z80.executeStep at h
  dsimp only at h
  rw [show spectrumBus.fetch_opcode = ZXSpectrum48.fetch_opcode from rfl] at h
  have hge := ZX_fetch_opcode_ge s.b s.regPC
  generalize hr : ZXSpectrum48.fetch_opcode s.b s.regPC = r at h
  rw [hr] at hge
  split at h
  · refine le_of_le_of_eq ?_ (congrArg (fun z : Z80State => z.b.tstates) (Option.some.inj h))
    exact le_trans hge (interruptTail_mono {s with b := r.2, regR := s.regR + 1})
  · split at h
    · split at h
      · exact Option.noConfusion h
      · rename_i s3 heq
        split at h
        · refine le_of_le_of_eq ?_ (congrArg (fun z : Z80State => z.b.tstates) (Option.some.inj h))
          exact le_trans hge (dispatch_mono eddict hmono _ _ _ heq)
        · refine le_of_le_of_eq ?_ (congrArg (fun z : Z80State => z.b.tstates) (Option.some.inj h))
          refine le_trans hge (le_trans (dispatch_mono eddict hmono _ _ _ heq) ?_)
          exact interruptTail_mono {s3 with lastFlagQ := s3.flagQ}
    · exact Option.noConfusion h

theorem executeN_tstates_ge (eddict : Nat -> Option (Z80State -> Z80State))
    (hmono : forall k f, eddict k = some f -> forall t, t.b.tstates <= (f t).b.tstates) :
    forall (n : Nat) (s sx : Z80State),
      Z80.executeN spectrumBus eddict n s = some sx ->
      s.b.tstates + 4 * n <= sx.b.tstates := by
  intro n
  induction n with
  | zero =>
    intro s sx h
    rw [show Z80.executeN spectrumBus eddict 0 s = some s from rfl] at h
    refine le_of_le_of_eq ?_ (congrArg (fun z : Z80State => z.b.tstates) (Option.some.inj h))
    show s.b.tstates + 4 * 0 <= s.b.tstates
    omega
  | succ n ih =>
    intro s sx h
    rw [show Z80.executeN spectrumBus eddict (n + 1) s =
        (Z80.executeStep spectrumBus eddict s).bind
          (Z80.executeN spectrumBus eddict n) from rfl] at h
    cases hstep : Z80.executeStep spectrumBus eddict s with
    | none =>
      rw [hstep] at h
      exact Option.noConfusion h
    | some s1 =>
      rw [hstep] at h
      rw [show (some s1).bind (Z80.executeN spectrumBus eddict n) =
          Z80.executeN spectrumBus eddict n s1 from rfl] at h
      have h1 := executeStep_mono eddict hmono s s1 hstep
      have h2 := ih s1 sx h
      omega

/-- Claim C10: every fetch advances the clock by at least its base cost of
4 T-states (contention only adds), every successful loop iteration
advances it by at least 4, `n` iterations advance it by at least `4 * n`,
and hence the T-state counter reaches any `states_limit` after at most
`states_limit` iterations: `execute(states_limit)` terminates. -/
theorem C10_execute_terminates (eddict : Nat → Option (Z80State → Z80State))
    (hmono : ∀ k f, eddict k = some f → ∀ t, t.b.tstates ≤ (f t).b.tstates) :
    (∀ (b : BusState) (a : Nat),
      b.tstates + 4 ≤ (ZXSpectrum48.fetch_opcode b a).2.tstates) ∧
    (∀ s sx : Z80State, Z80.executeStep spectrumBus eddict s = some sx →
      s.b.tstates + 4 ≤ sx.b.tstates) ∧
    (∀ (n : Nat) (s sx : Z80State),
      Z80.executeN spectrumBus eddict n s = some sx →
      s.b.tstates + 4 * n ≤ sx.b.tstates) ∧
    (∀ (limit : Nat) (s sx : Z80State),
      Z80.executeN spectrumBus eddict limit s = some sx →
      limit ≤ sx.b.tstates) := by
  refine ⟨ZX_fetch_opcode_ge, executeStep_mono eddict hmono, executeN_tstates_ge eddict hmono, ?_⟩
  intro limit s sx h
  have := executeN_tstates_ge eddict hmono limit s sx h
  omega

theorem executeN_one_Z0 :
    Z80.executeN spectrumBus (fun _ => none) 1 Z0 = some SC10 := by
  have hstep : Z80.executeStep spectrumBus (fun _ => none) Z0 = some SC10 := by
    rw [executeStep_spectrum_small (fun _ => none) Z0 rfl rfl (by decide)]
    rw [show Memory.peekb Z0.b.mem Z0.regPC = 0 from rfl]
    rw [dispatch_00]
    dsimp only
    rw [if_neg (by decide)]
    rw [interruptTail_noint spectrumBus _ rfl rfl]
    rfl
  rw [show Z80.executeN spectrumBus (fun _ => none) 1 Z0 =
      (Z80.executeStep spectrumBus (fun _ => none) Z0).bind
        (Z80.executeN spectrumBus (fun _ => none) 0) from rfl, hstep]
  rfl

/-- Witness for C10: the all-zero eddict is monotone, one NOP iteration from
the cleared state succeeds, and the theorem bounds its clock from below by
the budget 1. -/
theorem C10_execute_terminates_witness :
    Z80.executeN spectrumBus (fun _ => none) 1 Z0 = some SC10 ∧ 1 ≤ SC10.b.tstates :=
  ⟨executeN_one_Z0,
   (C10_execute_terminates (fun _ => none)
      (fun _ _ h => Option.noConfusion h)).2.2.2 1 Z0 SC10 executeN_one_Z0⟩

/-- Claim C1: for every T-state t in [14335, 57247), the contention delay
table entry `delay_tstates t` lies in [0, 6] and equals
6 - ((t - 14335) mod 8) when (t - 14335) mod 224 < 128 (the 128 drawn
T-states of each 224-T-state line), and 0 otherwise. -/
theorem C1_contention_table (t : Nat) (h1 : 14335 ≤ t) (h2 : t < 57247) :
    delay_tstates t ≤ 6 ∧
    ((t - 14335) % 224 < 128 → delay_tstates t = 6 - (t - 14335) % 8) ∧
    (¬(t - 14335) % 224 < 128 → delay_tstates t = 0) := by
  refine ⟨delay_tstates_le_six t, ?_, ?_⟩
  · intro h3
    exact delay_tstates_contended t h1 h2 h3
  · intro h3
    exact delay_tstates_uncontended_row t h1 h2 (by omega)

/-- Witness for C1 at t = 14336 (second drawn T-state of the first line). -/
theorem C1_contention_table_witness :
    (14335 ≤ 14336 ∧ 14336 < 57247) ∧
    (delay_tstates 14336 ≤ 6 ∧
     ((14336 - 14335) % 224 < 128 → delay_tstates 14336 = 6 - (14336 - 14335) % 8) ∧
     (¬(14336 - 14335) % 224 < 128 → delay_tstates 14336 = 0)) :=
  ⟨⟨by decide, by decide⟩, C1_contention_table 14336 (by decide) (by decide)⟩
